import Mathlib

/-!
# The estimator coordinator of `drift` (src/src/state_estimator.cpp)

A shallow embedding of `StateEstimator` and a verification of its per-cycle
algorithm and of its start-up sequence.

Conventions of the embedding.

* `double` is modelled by `ℚ`; a decimal literal of the source stands for its
  decimal value.  The only arithmetic the coordinator itself performs is the
  product of a literal or of a vector with the identity matrix.
* A `std::queue` is a `List` whose head is the front of the queue; `push`
  appends at the end.
* A `std::shared_ptr` that may be null is an `Option`; dereferencing a null
  pointer has no defined behaviour and is the result `none` of the operation.
* Every propagation and correction object owns its sensor buffer; mutexes and
  the producer and publisher threads are outside the model.
* The classes `ImuPropagation`, `VelocityCorrection` and
  `KinematicsCorrection` are not part of the sources at hand, so their methods
  `Propagate`, `Correct` and `InitImuBias` are parameters of the operations that
  call them.
-/

namespace Drift

/-- `Eigen::Vector3d`. -/
abbrev Vector3d := Fin 3 → ℚ

/-- `Eigen::Matrix3d`. -/
abbrev Matrix3d := Matrix (Fin 3) (Fin 3) ℚ

/-- `ErrorType`, the second argument of the constructor of `StateEstimator`. -/
inductive ErrorType where
  | LeftInvariant
  | RightInvariant
  deriving DecidableEq, Repr

/-- Modelled from the spec: `NoiseParams` (filter/noise_params.h is not among the
sources): the process-noise densities gyro, accel, gyro-bias, accel-bias and
contact. -/
structure NoiseParams where
  gyroscope_std : ℚ
  accelerometer_std : ℚ
  gyroscope_bias_std : ℚ
  accelerometer_bias_std : ℚ
  contact_std : ℚ
  deriving DecidableEq

/-- Modelled from the spec: `ImuMeasurement` (measurement/imu.h is not among the
sources): {t, ω, a, optional unit quaternion q}. -/
structure ImuMeasurement where
  time : ℚ
  angular_velocity : Vector3d
  linear_acceleration : Vector3d
  quaternion : Option (Fin 4 → ℚ)
  deriving DecidableEq

/-- Modelled from the spec: `VelocityMeasurement` (measurement/velocity.h is not
among the sources): {t, v_body}; `get_velocity` is the field `velocity`. -/
structure VelocityMeasurement where
  time : ℚ
  velocity : Vector3d
  deriving DecidableEq

/-- Modelled from the spec: one limb of a `KinematicsMeasurement`:
{contact, foot position in the body frame}. -/
structure LimbMeasurement where
  contact : Bool
  foot_position : Vector3d
  deriving DecidableEq

/-- Modelled from the spec: `KinematicsMeasurement` (measurement/legged_kinematics.h
is not among the sources): {t, per-limb data}. -/
structure KinematicsMeasurement where
  time : ℚ
  limbs : List LimbMeasurement
  deriving DecidableEq

/-- Modelled from the spec: `RobotState` (state/robot_state.h is not among the
sources): the rotation, velocity and position blocks of X, the bias vector
θ = (b_g, b_a), the five diagonal 3x3 blocks of the covariance P that
have a setter, and the state time.  `remainder` stands for all entries of X and
P outside these blocks (contact landmarks, off-diagonal covariance blocks). -/
structure RobotState where
  rotation : Matrix3d
  velocity : Vector3d
  position : Vector3d
  gyroscope_bias : Vector3d
  accelerometer_bias : Vector3d
  rotation_covariance : Matrix3d
  velocity_covariance : Matrix3d
  position_covariance : Matrix3d
  gyroscope_bias_covariance : Matrix3d
  accelerometer_bias_covariance : Matrix3d
  time : ℚ
  remainder : List ℚ
  deriving DecidableEq

/-! The setters of `RobotState` are not among the sources either; as their names
say, each assigns the block it names and leaves the rest of the state alone. -/

namespace RobotState

/-- `RobotState::set_rotation`. -/
def set_rotation (s : RobotState) (R : Matrix3d) : RobotState := { s with rotation := R }

/-- `RobotState::set_velocity`. -/
def set_velocity (s : RobotState) (v : Vector3d) : RobotState := { s with velocity := v }

/-- `RobotState::set_position`. -/
def set_position (s : RobotState) (p : Vector3d) : RobotState := { s with position := p }

/-- `RobotState::set_gyroscope_bias`. -/
def set_gyroscope_bias (s : RobotState) (bg : Vector3d) : RobotState :=
  { s with gyroscope_bias := bg }

/-- `RobotState::set_accelerometer_bias`. -/
def set_accelerometer_bias (s : RobotState) (ba : Vector3d) : RobotState :=
  { s with accelerometer_bias := ba }

/-- `RobotState::set_rotation_covariance`. -/
def set_rotation_covariance (s : RobotState) (cov : Matrix3d) : RobotState :=
  { s with rotation_covariance := cov }

/-- `RobotState::set_velocity_covariance`. -/
def set_velocity_covariance (s : RobotState) (cov : Matrix3d) : RobotState :=
  { s with velocity_covariance := cov }

/-- `RobotState::set_position_covariance`. -/
def set_position_covariance (s : RobotState) (cov : Matrix3d) : RobotState :=
  { s with position_covariance := cov }

/-- `RobotState::set_gyroscope_bias_covariance`. -/
def set_gyroscope_bias_covariance (s : RobotState) (cov : Matrix3d) : RobotState :=
  { s with gyroscope_bias_covariance := cov }

/-- `RobotState::set_accelerometer_bias_covariance`. -/
def set_accelerometer_bias_covariance (s : RobotState) (cov : Matrix3d) : RobotState :=
  { s with accelerometer_bias_covariance := cov }

/-- `RobotState::set_time`. -/
def set_time (s : RobotState) (t : ℚ) : RobotState := { s with time := t }

end RobotState

/-- Modelled from the spec: `PropagationType`; the coordinator only compares it
with `PropagationType::IMU`. -/
inductive PropagationType where
  | BASE
  | IMU
  deriving DecidableEq, Repr

/-- Modelled from the spec: `CorrectionType`; the coordinator only compares it
with `CorrectionType::VELOCITY`. -/
inductive CorrectionType where
  | BASE
  | KINEMATICS
  | VELOCITY
  deriving DecidableEq, Repr

/-- The data members of `ImuPropagation` the coordinator reads or passes to its
constructor (lines 49-50, 81, 163, 204-205): the sensor buffer, the constructor
arguments, the bias-initialised flag, the estimated biases, and the samples
accumulated for the bias estimate. -/
structure ImuPropagation where
  sensor_data_buffer : List ImuMeasurement
  params : NoiseParams
  error_type : ErrorType
  estimate_bias : Bool
  imu2body : List ℚ
  bias_initialized : Bool
  bg0 : Vector3d
  ba0 : Vector3d
  bias_init_vec : List ImuMeasurement
  deriving DecidableEq

/-! The getters of `ImuPropagation` (lines 81, 163, 204, 205) return the member
they name. -/

namespace ImuPropagation

/-- `ImuPropagation::get_sensor_data_buffer_ptr`. -/
def get_sensor_data_buffer_ptr (p : ImuPropagation) : List ImuMeasurement := p.sensor_data_buffer

/-- `ImuPropagation::get_bias_initialized`. -/
def get_bias_initialized (p : ImuPropagation) : Bool := p.bias_initialized

/-- `ImuPropagation::get_estimate_gyro_bias`. -/
def get_estimate_gyro_bias (p : ImuPropagation) : Vector3d := p.bg0

/-- `ImuPropagation::get_estimate_accel_bias`. -/
def get_estimate_accel_bias (p : ImuPropagation) : Vector3d := p.ba0

end ImuPropagation

/-- The object behind `std::shared_ptr<Propagation>`: an `ImuPropagation`, or an
object of another class derived from `Propagation` (of which only its being
different from `ImuPropagation` matters to the coordinator). -/
inductive Propagation where
  | imu (p : ImuPropagation)
  | base (id : Nat)
  deriving DecidableEq

namespace Propagation

/-- `Propagation::get_propagation_type`. -/
def get_propagation_type : Propagation → PropagationType
  | imu _ => PropagationType.IMU
  | base _ => PropagationType.BASE

/-- `std::dynamic_pointer_cast<ImuPropagation>`: null unless the object is an
`ImuPropagation`. -/
def asImuPropagation : Propagation → Option ImuPropagation
  | imu p => some p
  | base _ => none

end Propagation

/-- The arguments `VelocityCorrection` is constructed from (lines 65-66). -/
structure VelocityCorrection where
  sensor_data_buffer : List VelocityMeasurement
  error_type : ErrorType
  covariance : Matrix3d
  deriving DecidableEq

/-- The arguments `KinematicsCorrection` is constructed from (lines 57-58). -/
structure KinematicsCorrection where
  sensor_data_buffer : List KinematicsMeasurement
  error_type : ErrorType
  aug_type : String
  deriving DecidableEq

/-- The object behind a `std::shared_ptr<Correction>` of `corrections_`: the two
classes the coordinator can register. -/
inductive Correction where
  | kinematics (c : KinematicsCorrection)
  | velocity (c : VelocityCorrection)
  deriving DecidableEq

namespace Correction

/-- `Correction::get_correction_type`. -/
def get_correction_type : Correction → CorrectionType
  | kinematics _ => CorrectionType.KINEMATICS
  | velocity _ => CorrectionType.VELOCITY

/-- `std::dynamic_pointer_cast<VelocityCorrection>`. -/
def asVelocityCorrection : Correction → Option VelocityCorrection
  | velocity c => some c
  | kinematics _ => none

end Correction

/-- What a call `obj->Propagate(state_)` or `obj->Correct(state_)` leaves behind:
the returned `bool`, the object after the call and the state after the call. -/
structure CallResult (κ : Type) where
  ret : Bool
  obj : κ
  state : RobotState

/-- The data members of `StateEstimator`.  `robot_state_queue_` is the output
queue behind `robot_state_queue_ptr_`. -/
structure StateEstimator where
  params_ : NoiseParams
  error_type_ : ErrorType
  robot_state_queue_ : List RobotState
  state_ : RobotState
  propagation_ : Option Propagation
  corrections_ : List Correction
  enabled_ : Bool
  new_pose_ready_ : Bool
  deriving DecidableEq

/-- The range-for of `run_once` (lines 14-18) over the corrections still to be
visited: it returns the corrections after their calls, the state and
`new_pose_ready_`. -/
def correctLoop (Correct : Correction → RobotState → CallResult Correction) :
    List Correction → RobotState → Bool → List Correction × RobotState × Bool
  | [], state, new_pose_ready => ([], state, new_pose_ready)
  | c :: cs, state, new_pose_ready =>
    let r := Correct c state
    let ready := if r.ret then true else new_pose_ready
    let rest := correctLoop Correct cs r.state ready
    (r.obj :: rest.1, rest.2.1, rest.2.2)

namespace StateEstimator

/-- `StateEstimator::run_once` (lines 10-31). -/
def run_once (Propagate : Propagation → RobotState → CallResult Propagation)
    (Correct : Correction → RobotState → CallResult Correction)
    (e : StateEstimator) : Option StateEstimator :=
  match e.propagation_ with
  | none => none
  | some prop =>
    let r := Propagate prop e.state_
    let e1 := { e with new_pose_ready_ := r.ret, propagation_ := some r.obj, state_ := r.state }
    let l := correctLoop Correct e1.corrections_ e1.state_ e1.new_pose_ready_
    let e2 := { e1 with corrections_ := l.1, state_ := l.2.1, new_pose_ready_ := l.2.2 }
    let e3 :=
      if e2.new_pose_ready_ then
        { e2 with robot_state_queue_ := e2.robot_state_queue_ ++ [e2.state_] }
      else e2
    some { e3 with new_pose_ready_ := false }

/-- `StateEstimator::set_state` (line 41). -/
def set_state (e : StateEstimator) (state : RobotState) : StateEstimator :=
  { e with state_ := state }

/-- `StateEstimator::get_state` (line 43). -/
def get_state (e : StateEstimator) : RobotState := e.state_

/-- `StateEstimator::get_robot_state_queue_ptr` (lines 33-35). -/
def get_robot_state_queue_ptr (e : StateEstimator) : List RobotState := e.robot_state_queue_

/-- `StateEstimator::add_kinematics_correction` (lines 53-60). -/
def add_kinematics_correction (e : StateEstimator) (buffer_ptr : List KinematicsMeasurement)
    (aug_type : String) : StateEstimator :=
  let correction := Correction.kinematics ⟨buffer_ptr, e.error_type_, aug_type⟩
  { e with corrections_ := e.corrections_ ++ [correction] }

/-- `StateEstimator::add_velocity_correction` (lines 62-68). -/
def add_velocity_correction (e : StateEstimator) (buffer_ptr : List VelocityMeasurement)
    (covariance : Matrix3d) : StateEstimator :=
  let correction := Correction.velocity ⟨buffer_ptr, e.error_type_, covariance⟩
  { e with corrections_ := e.corrections_ ++ [correction] }

/-- `StateEstimator::enabled` (line 70). -/
def enabled (e : StateEstimator) : Bool := e.enabled_

/-- `StateEstimator::enableFilter` (line 72). -/
def enableFilter (e : StateEstimator) : StateEstimator := { e with enabled_ := true }

/-- `StateEstimator::biasInitialized` (lines 74-82). -/
def biasInitialized (e : StateEstimator) : Option Bool :=
  match e.propagation_ with
  | none => none
  | some prop =>
    if prop.get_propagation_type ≠ PropagationType.IMU then some true
    else
      match prop.asImuPropagation with
      | none => none
      | some imu_propagation => some imu_propagation.get_bias_initialized

/-- `StateEstimator::initBias` (lines 84-91). -/
def initBias (InitImuBias : ImuPropagation → ImuPropagation) (e : StateEstimator) :
    Option StateEstimator :=
  match e.propagation_ with
  | none => none
  | some prop =>
    if prop.get_propagation_type ≠ PropagationType.IMU then some e
    else
      match prop.asImuPropagation with
      | none => none
      | some imu_propagation =>
        some { e with propagation_ := some (Propagation.imu (InitImuBias imu_propagation)) }

/-- `StateEstimator::clear` (line 230): the body is empty. -/
def clear (e : StateEstimator) : StateEstimator := e

end StateEstimator

/-- How the range-for of `initStateByImuAndVelocity` (lines 176-195) is left. -/
inductive VelocityLoopExit where
  /-- a null pointer was dereferenced -/
  | undefined
  /-- the `return` of line 187 -/
  | returned
  /-- the `break` of line 193 or the end of the range, with the content of `v0_body` -/
  | done (v0_body : Vector3d)
  deriving DecidableEq

/-- The range-for of `initStateByImuAndVelocity` (lines 176-195) over the
corrections still to be visited; `v0_body` is the content of the local variable,
which is declared without a value in line 175. -/
def velocityLoop : List Correction → Vector3d → VelocityLoopExit
  | [], v0_body => VelocityLoopExit.done v0_body
  | correction :: rest, v0_body =>
    if correction.get_correction_type = CorrectionType.VELOCITY then
      match correction.asVelocityCorrection with
      | none => VelocityLoopExit.undefined
      | some velocity_correction =>
        match velocity_correction.sensor_data_buffer with
        | [] => VelocityLoopExit.returned
        | velocity_packet_in :: _ => VelocityLoopExit.done velocity_packet_in.velocity
    else velocityLoop rest v0_body

namespace StateEstimator

/-- `StateEstimator::initStateByImuAndVelocity` (lines 154-228).  `fresh` is the
value of the default-constructed `RobotState initial_state;` of line 203 and
`indeterminate` the content of `v0_body` after its declaration in line 175, which
gives it no value.  The quaternion read in line 170 is not used and the printing
of lines 220-223 is not modelled. -/
def initStateByImuAndVelocity (fresh : RobotState) (indeterminate : Vector3d)
    (e : StateEstimator) : Option StateEstimator :=
  let e := e.clear
  match e.propagation_.bind Propagation.asImuPropagation with
  | none => none
  | some imu_propagation =>
    match imu_propagation.get_sensor_data_buffer_ptr with
    | [] => some e
    | imu_packet_in :: _ =>
      let R0 : Matrix3d := 1
      match velocityLoop e.corrections_ indeterminate with
      | VelocityLoopExit.undefined => none
      | VelocityLoopExit.returned => some e
      | VelocityLoopExit.done v0_body =>
        let v0 : Vector3d := R0.mulVec v0_body
        let p0 : Vector3d := ![0, 0, 0]
        let R0 : Matrix3d := 1
        let initial_state := fresh
        let bg0 := imu_propagation.get_estimate_gyro_bias
        let ba0 := imu_propagation.get_estimate_accel_bias
        let initial_state := initial_state.set_rotation R0
        let initial_state := initial_state.set_velocity v0
        let initial_state := initial_state.set_position p0
        let initial_state := initial_state.set_gyroscope_bias bg0
        let initial_state := initial_state.set_accelerometer_bias ba0
        let initial_state := initial_state.set_rotation_covariance ((0.03 : ℚ) • (1 : Matrix3d))
        let initial_state := initial_state.set_velocity_covariance ((0.01 : ℚ) • (1 : Matrix3d))
        let initial_state := initial_state.set_position_covariance ((0.00001 : ℚ) • (1 : Matrix3d))
        let initial_state :=
          initial_state.set_gyroscope_bias_covariance ((0.0001 : ℚ) • (1 : Matrix3d))
        let initial_state :=
          initial_state.set_accelerometer_bias_covariance ((0.0025 : ℚ) • (1 : Matrix3d))
        let e := e.set_state initial_state
        let t_prev := imu_packet_in.time
        some { e with state_ := e.state_.set_time t_prev, enabled_ := true }

end StateEstimator

/-- Modelled from the spec: the constructor of `ImuPropagation` (its source is
not at hand): it keeps its arguments; the coordinator starts in BiasInit, so the
bias is not yet initialised and no sample has been accumulated. -/
def ImuPropagation.create (buffer_ptr : List ImuMeasurement) (params : NoiseParams)
    (error_type : ErrorType) (estimate_bias : Bool) (imu2body : List ℚ) : ImuPropagation :=
  { sensor_data_buffer := buffer_ptr, params := params, error_type := error_type,
    estimate_bias := estimate_bias, imu2body := imu2body, bias_initialized := false,
    bg0 := 0, ba0 := 0, bias_init_vec := [] }

/-- `StateEstimator::add_imu_propagation` (lines 45-51). -/
def StateEstimator.add_imu_propagation (e : StateEstimator) (buffer_ptr : List ImuMeasurement)
    (estimate_bias : Bool) (imu2body : List ℚ) : StateEstimator :=
  { e with propagation_ := some (Propagation.imu
      (ImuPropagation.create buffer_ptr e.params_ e.error_type_ estimate_bias imu2body)) }

/-- One call of `add_kinematics_correction` or of `add_velocity_correction`, with
its arguments (the mutex apart). -/
inductive Registration where
  | kinematics (buffer_ptr : List KinematicsMeasurement) (aug_type : String)
  | velocity (buffer_ptr : List VelocityMeasurement) (covariance : Matrix3d)

/-- The correction object a registration call constructs, for the error type of
the estimator (lines 56-58 and 65-66). -/
def Registration.correction (error_type : ErrorType) : Registration → Correction
  | Registration.kinematics buffer_ptr aug_type =>
    Correction.kinematics ⟨buffer_ptr, error_type, aug_type⟩
  | Registration.velocity buffer_ptr covariance =>
    Correction.velocity ⟨buffer_ptr, error_type, covariance⟩

/-- A sequence of registration calls on an estimator, first call first. -/
def StateEstimator.register (e : StateEstimator) : List Registration → StateEstimator
  | [] => e
  | Registration.kinematics buffer_ptr aug_type :: rest =>
    StateEstimator.register (e.add_kinematics_correction buffer_ptr aug_type) rest
  | Registration.velocity buffer_ptr covariance :: rest =>
    StateEstimator.register (e.add_velocity_correction buffer_ptr covariance) rest

/-- The first velocity correction in registration order, if there is one. -/
def firstVelocityCorrection (cs : List Correction) : Option VelocityCorrection :=
  (cs.filterMap Correction.asVelocityCorrection).head?

/-! ## The order of the calls of one cycle, told without the loop -/

/-- The state the correction at position `i` is handed when the corrections of
`cs` are called one after another from position 0, the first one on `s0`. -/
def stateBefore (Correct : Correction → RobotState → CallResult Correction)
    (cs : List Correction) (s0 : RobotState) : Nat → RobotState
  | 0 => s0
  | i + 1 =>
    match cs[i]? with
    | some c => (Correct c (stateBefore Correct cs s0 i)).state
    | none => stateBefore Correct cs s0 i

/-- The call of `Correct` on the correction at position `i` of `cs`. -/
def callAt (Correct : Correction → RobotState → CallResult Correction)
    (cs : List Correction) (s0 : RobotState) (i : Nat) : Option (CallResult Correction) :=
  cs[i]?.map (fun c => Correct c (stateBefore Correct cs s0 i))

/-- Some call of `Correct` of the cycle returned true. -/
def someCorrectReturnedTrue (Correct : Correction → RobotState → CallResult Correction)
    (cs : List Correction) (s0 : RobotState) : Prop :=
  ∃ i r, callAt Correct cs s0 i = some r ∧ r.ret = true

/-! ## Collaborators the sources do not contain, as the spec describes them -/

/-- The mean of a list of vectors. -/
def meanVector (vs : List Vector3d) : Vector3d := (1 / (vs.length : ℚ)) • vs.sum

/-- Modelled from the spec: `ImuPropagation::InitImuBias` (its source is not at
hand).  Section 4.3: "until bias_initialized is true, incoming IMU samples
accumulate into running means; after a configured count N [...] b_g := mean(ω),
b_a := mean(a) − R̂ᵀ·g (with R̂ = I), and the flag flips to true"; section 8:
"calling init_bias after bias_initialized==true is a no-op".  One call takes one
sample from the front of the buffer. -/
def ImuPropagation.InitImuBias (N : Nat) (g : Vector3d) (p : ImuPropagation) : ImuPropagation :=
  if p.bias_initialized then p
  else
    match p.sensor_data_buffer with
    | [] => p
    | m :: rest =>
      let samples := p.bias_init_vec ++ [m]
      if samples.length < N then
        { p with sensor_data_buffer := rest, bias_init_vec := samples }
      else
        { p with
          sensor_data_buffer := rest
          bias_init_vec := samples
          bg0 := meanVector (samples.map ImuMeasurement.angular_velocity)
          ba0 := meanVector (samples.map ImuMeasurement.linear_acceleration) - g
          bias_initialized := true }

/-- Modelled from the spec: `ImuPropagation::Propagate` (its source is not at
hand).  Section 4.3: "drain all IMU measurements with timestamp ≤ t_curr", "returns
true if at least one measurement was consumed (so the state advanced), false
otherwise", "while bias_initialized is false, Propagate is a no-op on (X, P) but
still drains and counts samples".  The integration of one sample is the parameter
`integrate`. -/
def ImuPropagation.Propagate (t_curr : ℚ)
    (integrate : ImuMeasurement → RobotState → RobotState)
    (p : ImuPropagation) (state : RobotState) : CallResult ImuPropagation :=
  let drained := p.sensor_data_buffer.takeWhile (fun m => decide (m.time ≤ t_curr))
  let kept := p.sensor_data_buffer.dropWhile (fun m => decide (m.time ≤ t_curr))
  { ret := !drained.isEmpty
    obj := { p with sensor_data_buffer := kept }
    state := if p.bias_initialized then drained.foldl (fun s m => integrate m s) state
      else state }

/-- The virtual call `propagation_->Propagate(state_)`: `ImuPropagation::Propagate`
as modelled from the spec on an IMU propagation; the skeleton of the base class
advances nothing. -/
def Propagation.Propagate (t_curr : ℚ) (integrate : ImuMeasurement → RobotState → RobotState) :
    Propagation → RobotState → CallResult Propagation
  | Propagation.imu p, state =>
    let r := p.Propagate t_curr integrate state
    { ret := r.ret, obj := Propagation.imu r.obj, state := r.state }
  | Propagation.base id, state => { ret := false, obj := Propagation.base id, state := state }

/-! ## The estimator loop and the public operations -/

/-- What the operations of the estimator take from outside `StateEstimator`: the
methods of the propagation and correction classes and the value of a
default-constructed `RobotState`. -/
structure Collaborators where
  Propagate : Propagation → RobotState → CallResult Propagation
  Correct : Correction → RobotState → CallResult Correction
  InitImuBias : ImuPropagation → ImuPropagation
  fresh : RobotState

/-- The step of one iteration of the estimator loop of `main`
(src/ROS/drift/examples/wamv_gps.cpp, lines 118-126), where `is_enabled`, `RunOnce`, `BiasInitialized`, `InitState` and
`InitBias` are `enabled`, `run_once`, `biasInitialized`,
`initStateByImuAndVelocity` and `initBias`. -/
def estimatorLoopStep (env : Collaborators) (indeterminate : Vector3d) (e : StateEstimator) :
    Option StateEstimator :=
  if e.enabled then e.run_once env.Propagate env.Correct
  else
    match e.biasInitialized with
    | none => none
    | some true => e.initStateByImuAndVelocity env.fresh indeterminate
    | some false => e.initBias env.InitImuBias

/-- A call of a public operation of `StateEstimator` that changes the estimator,
with its arguments. -/
inductive Operation where
  | run_once
  | set_state (state : RobotState)
  | add_imu_propagation (buffer_ptr : List ImuMeasurement) (estimate_bias : Bool)
      (imu2body : List ℚ)
  | add_kinematics_correction (buffer_ptr : List KinematicsMeasurement) (aug_type : String)
  | add_velocity_correction (buffer_ptr : List VelocityMeasurement) (covariance : Matrix3d)
  | enableFilter
  | initBias
  | initStateByImuAndVelocity (indeterminate : Vector3d)
  | clear

/-- The effect of one call. -/
def Operation.apply (env : Collaborators) : Operation → StateEstimator → Option StateEstimator
  | Operation.run_once, e => e.run_once env.Propagate env.Correct
  | Operation.set_state state, e => some (e.set_state state)
  | Operation.add_imu_propagation buffer_ptr estimate_bias imu2body, e =>
    some (e.add_imu_propagation buffer_ptr estimate_bias imu2body)
  | Operation.add_kinematics_correction buffer_ptr aug_type, e =>
    some (e.add_kinematics_correction buffer_ptr aug_type)
  | Operation.add_velocity_correction buffer_ptr covariance, e =>
    some (e.add_velocity_correction buffer_ptr covariance)
  | Operation.enableFilter, e => some e.enableFilter
  | Operation.initBias, e => e.initBias env.InitImuBias
  | Operation.initStateByImuAndVelocity indeterminate, e =>
    e.initStateByImuAndVelocity env.fresh indeterminate
  | Operation.clear, e => some e.clear

/-- The effect of a sequence of calls, first call first. -/
def Operation.applyAll (env : Collaborators) : List Operation → StateEstimator →
    Option StateEstimator
  | [], e => some e
  | op :: ops, e => (op.apply env e).bind (Operation.applyAll env ops)

/-- The three calls the estimator loop chooses from (wamv_gps.cpp, lines 119, 122
and 124). -/
inductive Routine where
  | RunOnce
  | InitState
  | InitBias
  deriving DecidableEq, Repr

/-- The call a routine stands for. -/
def Routine.run (env : Collaborators) (indeterminate : Vector3d) :
    Routine → StateEstimator → Option StateEstimator
  | Routine.RunOnce, e => e.run_once env.Propagate env.Correct
  | Routine.InitState, e => e.initStateByImuAndVelocity env.fresh indeterminate
  | Routine.InitBias, e => e.initBias env.InitImuBias

/-- The tests of lines 118 and 121 under which the loop reaches the call of a
routine. -/
def Routine.reached (e : StateEstimator) : Routine → Bool
  | Routine.RunOnce => e.enabled
  | Routine.InitState => !e.enabled && e.biasInitialized == some true
  | Routine.InitBias => !e.enabled && e.biasInitialized == some false

/-- Modelled from the spec: what a producer does (section 4.1: "Producers acquire
the mutex, push, and release"); the callbacks that `ros::spinOnce()` runs are only
declared in ros_subscriber.h.  A measurement arrives for the IMU buffer or for the
buffer of the correction at a position of the list of corrections. -/
inductive Arrival where
  | imu (m : ImuMeasurement)
  | velocity (position : Nat) (m : VelocityMeasurement)
  | kinematics (position : Nat) (m : KinematicsMeasurement)

/-- A velocity measurement is pushed to the back of the buffer of the correction at
a position, if that is a velocity correction. -/
def pushVelocity (m : VelocityMeasurement) : Nat → List Correction → List Correction
  | _, [] => []
  | 0, Correction.velocity c :: cs =>
    Correction.velocity { c with sensor_data_buffer := c.sensor_data_buffer ++ [m] } :: cs
  | 0, Correction.kinematics c :: cs => Correction.kinematics c :: cs
  | i + 1, c :: cs => c :: pushVelocity m i cs

/-- A kinematics measurement is pushed to the back of the buffer of the correction
at a position, if that is a kinematics correction. -/
def pushKinematics (m : KinematicsMeasurement) : Nat → List Correction → List Correction
  | _, [] => []
  | 0, Correction.kinematics c :: cs =>
    Correction.kinematics { c with sensor_data_buffer := c.sensor_data_buffer ++ [m] } :: cs
  | 0, Correction.velocity c :: cs => Correction.velocity c :: cs
  | i + 1, c :: cs => c :: pushKinematics m i cs

/-- The effect of an arrival on the buffers the estimator reads. -/
def Arrival.deliver : Arrival → StateEstimator → StateEstimator
  | Arrival.imu m, e =>
    match e.propagation_ with
    | some (Propagation.imu p) =>
      { e with propagation_ := some (Propagation.imu
          { p with sensor_data_buffer := p.sensor_data_buffer ++ [m] }) }
    | _ => e
  | Arrival.velocity position m, e =>
    { e with corrections_ := pushVelocity m position e.corrections_ }
  | Arrival.kinematics position m, e =>
    { e with corrections_ := pushKinematics m position e.corrections_ }

/-- The effect of a sequence of arrivals, first arrival first. -/
def deliverAll : List Arrival → StateEstimator → StateEstimator
  | [], e => e
  | a :: rest, e => deliverAll rest (a.deliver e)

/-- What one iteration of the loop of `main` takes from outside: the content of
`v0_body` if state initialisation is called, and the measurements that arrive
during `ros::spinOnce()` (line 127). -/
structure LoopPass where
  indeterminate : Vector3d
  arrivals : List Arrival

/-- One iteration of the loop of `main` (wamv_gps.cpp, lines 116-128): the step of
lines 118-126, then the arrivals of line 127. -/
def estimatorLoopPass (env : Collaborators) (pass : LoopPass) (e : StateEstimator) :
    Option StateEstimator :=
  (estimatorLoopStep env pass.indeterminate e).map (deliverAll pass.arrivals)

/-- A finite number of iterations of the loop of `main`, first iteration first. -/
def estimatorLoop (env : Collaborators) : List LoopPass → StateEstimator → Option StateEstimator
  | [], e => some e
  | pass :: rest, e => (estimatorLoopPass env pass e).bind (estimatorLoop env rest)

/-- What the loop keeps true from a start that is not enabled: a propagation is
installed, and as long as the enabled flag is false the output queue is empty and
the propagation is an IMU propagation. -/
def BeforeRunning (e : StateEstimator) : Prop :=
  (∃ prop, e.propagation_ = some prop) ∧
  (e.enabled_ = false →
    e.robot_state_queue_ = [] ∧ ∃ p, e.propagation_ = some (Propagation.imu p))

/-! ## Concrete inputs -/

/-- A state with every block zero, at time 0. -/
def zeroState : RobotState :=
  { rotation := 0, velocity := 0, position := 0, gyroscope_bias := 0, accelerometer_bias := 0,
    rotation_covariance := 0, velocity_covariance := 0, position_covariance := 0,
    gyroscope_bias_covariance := 0, accelerometer_bias_covariance := 0, time := 0,
    remainder := [] }

/-- An IMU sample at time 2 of a robot at rest. -/
def imuSample : ImuMeasurement :=
  { time := 2, angular_velocity := 0, linear_acceleration := ![0, 0, 9.81], quaternion := none }

/-- A velocity sample at time 1 with body velocity (1, 0, 0). -/
def velocitySample : VelocityMeasurement := { time := 1, velocity := ![1, 0, 0] }

/-- A second velocity sample, with body velocity (0, 5, 0). -/
def otherVelocitySample : VelocityMeasurement := { time := 1, velocity := ![0, 5, 0] }

/-- Noise parameters, all zero. -/
def zeroNoise : NoiseParams := ⟨0, 0, 0, 0, 0⟩

/-- An IMU propagation with one sample in its buffer, whose bias is estimated. -/
def readyImu : ImuPropagation :=
  { sensor_data_buffer := [imuSample], params := zeroNoise,
    error_type := ErrorType.RightInvariant, estimate_bias := true, imu2body := [],
    bias_initialized := true, bg0 := ![1, 2, 3], ba0 := ![4, 5, 6], bias_init_vec := [] }

/-- A velocity correction with one sample in its buffer. -/
def readyVelocity : VelocityCorrection :=
  { sensor_data_buffer := [velocitySample], error_type := ErrorType.RightInvariant,
    covariance := 1 }

/-- A kinematics correction with an empty buffer. -/
def idleKinematics : KinematicsCorrection :=
  { sensor_data_buffer := [], error_type := ErrorType.RightInvariant, aug_type := "" }

/-- An estimator that is not enabled, with an IMU propagation, a kinematics and a
velocity correction, and an empty output queue. -/
def startEstimator : StateEstimator :=
  { params_ := zeroNoise, error_type_ := ErrorType.RightInvariant, robot_state_queue_ := [],
    state_ := zeroState, propagation_ := some (Propagation.imu readyImu),
    corrections_ := [Correction.kinematics idleKinematics, Correction.velocity readyVelocity],
    enabled_ := false, new_pose_ready_ := false }

/-- The estimator `startEstimator` before any correction is registered. -/
def bareEstimator : StateEstimator := { startEstimator with corrections_ := [] }

/-- The registration of a kinematics correction with an empty buffer followed by
that of a velocity correction with one sample. -/
def twoRegistrations : List Registration :=
  [Registration.kinematics [] "", Registration.velocity [velocitySample] 1]

/-- A velocity correction with an empty buffer. -/
def starvedVelocity : VelocityCorrection :=
  { sensor_data_buffer := [], error_type := ErrorType.RightInvariant, covariance := 1 }

/-- The estimator `startEstimator` with a kinematics correction (whose buffer is
empty) as its only correction. -/
def leggedEstimator : StateEstimator :=
  { startEstimator with corrections_ := [Correction.kinematics idleKinematics] }

/-- The estimator `startEstimator` with two velocity corrections: the first has an
empty buffer, the second has one sample. -/
def starvedEstimator : StateEstimator :=
  { startEstimator with
    corrections_ := [Correction.velocity starvedVelocity, Correction.velocity readyVelocity] }

/-- The estimator `startEstimator` with the enabled flag set. -/
def runningEstimator : StateEstimator := { startEstimator with enabled_ := true }

/-- One call of each public operation that changes the estimator. -/
def everyOperation : List Operation :=
  [Operation.run_once, Operation.set_state zeroState,
    Operation.add_imu_propagation [imuSample] true [],
    Operation.add_kinematics_correction [] "", Operation.add_velocity_correction [] 1,
    Operation.enableFilter, Operation.initBias, Operation.initStateByImuAndVelocity 0,
    Operation.clear]

/-- Two iterations of the loop: an IMU sample and a velocity sample arrive during
the first, nothing arrives during the second. -/
def twoPasses : List LoopPass :=
  [{ indeterminate := 0, arrivals := [Arrival.imu imuSample, Arrival.velocity 1 velocitySample] },
    { indeterminate := 0, arrivals := [] }]

/-- A `Propagate` that takes the front sample of the buffer of an IMU propagation,
sets the state time to its time stamp and returns true, and returns false on an
empty buffer. -/
def frontPropagate : Propagation → RobotState → CallResult Propagation
  | Propagation.imu p, s =>
    match p.sensor_data_buffer with
    | [] => ⟨false, Propagation.imu p, s⟩
    | m :: rest => ⟨true, Propagation.imu { p with sensor_data_buffer := rest }, s.set_time m.time⟩
  | Propagation.base id, s => ⟨false, Propagation.base id, s⟩

/-- A `Correct` that takes the front sample of the buffer of a velocity correction,
overwrites the velocity of the state with it and returns true, and returns false on
an empty buffer and on a kinematics correction. -/
def frontCorrect : Correction → RobotState → CallResult Correction
  | Correction.velocity c, s =>
    match c.sensor_data_buffer with
    | [] => ⟨false, Correction.velocity c, s⟩
    | m :: rest =>
      ⟨true, Correction.velocity { c with sensor_data_buffer := rest }, s.set_velocity m.velocity⟩
  | Correction.kinematics c, s => ⟨false, Correction.kinematics c, s⟩

/-- An IMU propagation with one sample in its buffer, whose bias is not yet
estimated. -/
def coldImu : ImuPropagation :=
  { readyImu with bias_initialized := false, bg0 := 0, ba0 := 0 }

/-- An estimator before bias initialisation: not enabled, without corrections,
with an empty output queue and one IMU sample waiting. -/
def coldEstimator : StateEstimator :=
  { bareEstimator with propagation_ := some (Propagation.imu coldImu) }

/-- An integration step that leaves the state as it is. -/
def holdState : ImuMeasurement → RobotState → RobotState := fun _ s => s

/-- Collaborators for the concrete inputs. -/
def sampleCollaborators : Collaborators :=
  { Propagate := frontPropagate, Correct := frontCorrect,
    InitImuBias := ImuPropagation.InitImuBias 250 ![0, 0, -9.81], fresh := zeroState }

/-! ## Lemmas on the loops -/

theorem stateBefore_cons (Correct : Correction → RobotState → CallResult Correction)
    (c : Correction) (cs : List Correction) (s0 : RobotState) (i : Nat) :
    stateBefore Correct (c :: cs) s0 (i + 1) = stateBefore Correct cs (Correct c s0).state i := by
  induction i with
  | zero => simp [stateBefore]
  | succ n ih =>
    rw [stateBefore, List.getElem?_cons_succ, ih]
    conv_rhs => rw [stateBefore]

theorem callAt_cons_zero (Correct : Correction → RobotState → CallResult Correction)
    (c : Correction) (cs : List Correction) (s0 : RobotState) :
    callAt Correct (c :: cs) s0 0 = some (Correct c s0) := by
  simp [callAt, stateBefore]

theorem callAt_cons_succ (Correct : Correction → RobotState → CallResult Correction)
    (c : Correction) (cs : List Correction) (s0 : RobotState) (i : Nat) :
    callAt Correct (c :: cs) s0 (i + 1) = callAt Correct cs (Correct c s0).state i := by
  simp [callAt, stateBefore_cons]

theorem someCorrectReturnedTrue_cons (Correct : Correction → RobotState → CallResult Correction)
    (c : Correction) (cs : List Correction) (s0 : RobotState) :
    someCorrectReturnedTrue Correct (c :: cs) s0 ↔
      (Correct c s0).ret = true ∨ someCorrectReturnedTrue Correct cs (Correct c s0).state := by
  constructor
  · rintro ⟨i, r, hr, ht⟩
    cases i with
    | zero =>
      rw [callAt_cons_zero] at hr
      left
      cases hr
      exact ht
    | succ n =>
      rw [callAt_cons_succ] at hr
      exact Or.inr ⟨n, r, hr, ht⟩
  · rintro (h | ⟨i, r, hr, ht⟩)
    · exact ⟨0, _, callAt_cons_zero Correct c cs s0, h⟩
    · exact ⟨i + 1, r, by rw [callAt_cons_succ]; exact hr, ht⟩

theorem correctLoop_state (Correct : Correction → RobotState → CallResult Correction)
    (cs : List Correction) (s : RobotState) (b : Bool) :
    (correctLoop Correct cs s b).2.1 = stateBefore Correct cs s cs.length := by
  induction cs generalizing s b with
  | nil => simp [correctLoop, stateBefore]
  | cons c cs ih =>
    simp only [correctLoop, List.length_cons]
    rw [ih, stateBefore_cons]

theorem correctLoop_ready (Correct : Correction → RobotState → CallResult Correction)
    (cs : List Correction) (s : RobotState) (b : Bool) :
    (correctLoop Correct cs s b).2.2 = true ↔
      b = true ∨ someCorrectReturnedTrue Correct cs s := by
  induction cs generalizing s b with
  | nil =>
    simp [correctLoop, someCorrectReturnedTrue, callAt]
  | cons c cs ih =>
    simp only [correctLoop]
    rw [ih, someCorrectReturnedTrue_cons]
    cases hr : (Correct c s).ret <;> cases b <;> simp

theorem correctLoop_objs (Correct : Correction → RobotState → CallResult Correction)
    (cs : List Correction) (s : RobotState) (b : Bool) (i : Nat) :
    (correctLoop Correct cs s b).1[i]? = (callAt Correct cs s i).map (fun r => r.obj) := by
  induction cs generalizing s b i with
  | nil => simp [correctLoop, callAt]
  | cons c cs ih =>
    cases i with
    | zero => simp [correctLoop, callAt_cons_zero]
    | succ n =>
      simp only [correctLoop, List.getElem?_cons_succ]
      rw [ih, callAt_cons_succ]

theorem correctLoop_length (Correct : Correction → RobotState → CallResult Correction)
    (cs : List Correction) (s : RobotState) (b : Bool) :
    (correctLoop Correct cs s b).1.length = cs.length := by
  induction cs generalizing s b with
  | nil => simp [correctLoop]
  | cons c cs ih => simp [correctLoop, ih]

theorem register_frame (e : StateEstimator) (regs : List Registration) :
    (e.register regs).corrections_ = e.corrections_ ++ regs.map (Registration.correction e.error_type_) ∧
    (e.register regs).propagation_ = e.propagation_ ∧
    (e.register regs).state_ = e.state_ ∧
    (e.register regs).robot_state_queue_ = e.robot_state_queue_ ∧
    (e.register regs).enabled_ = e.enabled_ ∧
    (e.register regs).error_type_ = e.error_type_ := by
  induction regs generalizing e with
  | nil => simp [StateEstimator.register]
  | cons r rest ih =>
    cases r with
    | kinematics b a =>
      have h := ih (e.add_kinematics_correction b a)
      simp only [StateEstimator.register]
      simpa [StateEstimator.add_kinematics_correction, Registration.correction] using h
    | velocity b c =>
      have h := ih (e.add_velocity_correction b c)
      simp only [StateEstimator.register]
      simpa [StateEstimator.add_velocity_correction, Registration.correction] using h

theorem run_once_eq (Propagate : Propagation → RobotState → CallResult Propagation)
    (Correct : Correction → RobotState → CallResult Correction)
    (e : StateEstimator) (prop : Propagation) (hprop : e.propagation_ = some prop) :
    ∃ e', e.run_once Propagate Correct = some e' ∧
      e'.propagation_ = some (Propagate prop e.state_).obj ∧
      e'.corrections_ =
        (correctLoop Correct e.corrections_ (Propagate prop e.state_).state
          (Propagate prop e.state_).ret).1 ∧
      e'.state_ =
        (correctLoop Correct e.corrections_ (Propagate prop e.state_).state
          (Propagate prop e.state_).ret).2.1 ∧
      e'.enabled_ = e.enabled_ ∧
      e'.params_ = e.params_ ∧
      e'.error_type_ = e.error_type_ ∧
      e'.new_pose_ready_ = false := by
  refine ⟨_, by simp only [StateEstimator.run_once, hprop]; rfl, ?_⟩
  split <;> simp

theorem firstVelocityCorrection_kinematics (c : KinematicsCorrection) (cs : List Correction) :
    firstVelocityCorrection (Correction.kinematics c :: cs) = firstVelocityCorrection cs := by
  simp [firstVelocityCorrection, Correction.asVelocityCorrection]

theorem firstVelocityCorrection_velocity (c : VelocityCorrection) (cs : List Correction) :
    firstVelocityCorrection (Correction.velocity c :: cs) = some c := by
  simp [firstVelocityCorrection, Correction.asVelocityCorrection]

theorem velocityLoop_eq (cs : List Correction) (v0_body : Vector3d) :
    velocityLoop cs v0_body =
      match firstVelocityCorrection cs with
      | none => VelocityLoopExit.done v0_body
      | some vc =>
        match vc.sensor_data_buffer with
        | [] => VelocityLoopExit.returned
        | velocity_packet_in :: _ => VelocityLoopExit.done velocity_packet_in.velocity := by
  induction cs with
  | nil => simp [velocityLoop, firstVelocityCorrection]
  | cons c cs ih =>
    cases c with
    | kinematics k =>
      rw [firstVelocityCorrection_kinematics, ← ih]
      simp [velocityLoop, Correction.get_correction_type]
    | velocity vc =>
      rw [firstVelocityCorrection_velocity]
      simp only [velocityLoop, Correction.get_correction_type, if_true,
        Correction.asVelocityCorrection]

/-- The state `initStateByImuAndVelocity` installs (lines 197-219 and 225-226) for
the velocity `v0_body`, the IMU propagation and the front IMU sample. -/
theorem initState_of_done (fresh : RobotState) (indeterminate : Vector3d) (e : StateEstimator)
    (imu_propagation : ImuPropagation) (imu_packet_in : ImuMeasurement)
    (imu_rest : List ImuMeasurement) (v0_body : Vector3d)
    (hprop : e.propagation_ = some (Propagation.imu imu_propagation))
    (himu : imu_propagation.sensor_data_buffer = imu_packet_in :: imu_rest)
    (hloop : velocityLoop e.corrections_ indeterminate = VelocityLoopExit.done v0_body) :
    e.initStateByImuAndVelocity fresh indeterminate =
      some { e with
        state_ :=
          { fresh with
            rotation := 1
            velocity := v0_body
            position := ![0, 0, 0]
            gyroscope_bias := imu_propagation.bg0
            accelerometer_bias := imu_propagation.ba0
            rotation_covariance := (0.03 : ℚ) • (1 : Matrix3d)
            velocity_covariance := (0.01 : ℚ) • (1 : Matrix3d)
            position_covariance := (0.00001 : ℚ) • (1 : Matrix3d)
            gyroscope_bias_covariance := (0.0001 : ℚ) • (1 : Matrix3d)
            accelerometer_bias_covariance := (0.0025 : ℚ) • (1 : Matrix3d)
            time := imu_packet_in.time }
        enabled_ := true } := by
  simp only [StateEstimator.initStateByImuAndVelocity, StateEstimator.clear, hprop,
    Option.some_bind, Propagation.asImuPropagation, ImuPropagation.get_sensor_data_buffer_ptr,
    himu, hloop, Matrix.one_mulVec, StateEstimator.set_state]
  rfl

theorem initState_cases (fresh : RobotState) (indeterminate : Vector3d) (e e' : StateEstimator)
    (h : e.initStateByImuAndVelocity fresh indeterminate = some e') :
    e' = e ∨ ∃ state, e' = { e with state_ := state, enabled_ := true } := by
  unfold StateEstimator.initStateByImuAndVelocity at h
  simp only [StateEstimator.clear] at h
  split at h
  · cases h
  · split at h
    · cases h
      exact Or.inl rfl
    · split at h
      · cases h
      · cases h
        exact Or.inl rfl
      · cases h
        exact Or.inr ⟨_, rfl⟩

theorem initBias_cases (InitImuBias : ImuPropagation → ImuPropagation) (e e' : StateEstimator)
    (h : e.initBias InitImuBias = some e') :
    ∃ prop, e.propagation_ = some prop ∧
      ((prop.get_propagation_type ≠ PropagationType.IMU ∧ e' = e) ∨
        ∃ p, prop = Propagation.imu p ∧
          e' = { e with propagation_ := some (Propagation.imu (InitImuBias p)) }) := by
  unfold StateEstimator.initBias at h
  cases hp : e.propagation_ with
  | none => simp [hp] at h
  | some prop =>
    refine ⟨prop, rfl, ?_⟩
    cases prop with
    | base id =>
      simp [hp, Propagation.get_propagation_type] at h
      exact Or.inl ⟨by simp [Propagation.get_propagation_type], h.symm⟩
    | imu p =>
      simp [hp, Propagation.get_propagation_type, Propagation.asImuPropagation] at h
      exact Or.inr ⟨p, rfl, h.symm⟩

theorem velocityLoop_ne_undefined (cs : List Correction) (v0_body : Vector3d) :
    velocityLoop cs v0_body ≠ VelocityLoopExit.undefined := by
  rw [velocityLoop_eq]
  cases firstVelocityCorrection cs with
  | none => simp
  | some vc =>
    cases hv : vc.sensor_data_buffer with
    | nil => simp [hv]
    | cons v vs => simp [hv]

theorem initState_defined (fresh : RobotState) (indeterminate : Vector3d) (e : StateEstimator)
    (p : ImuPropagation) (hprop : e.propagation_ = some (Propagation.imu p)) :
    ∃ e', e.initStateByImuAndVelocity fresh indeterminate = some e' := by
  cases hb : p.sensor_data_buffer with
  | nil =>
    exact ⟨e, by simp [StateEstimator.initStateByImuAndVelocity, StateEstimator.clear, hprop,
      Propagation.asImuPropagation, ImuPropagation.get_sensor_data_buffer_ptr, hb]⟩
  | cons m ms =>
    cases hl : velocityLoop e.corrections_ indeterminate with
    | undefined => exact absurd hl (velocityLoop_ne_undefined _ _)
    | returned =>
      exact ⟨e, by simp [StateEstimator.initStateByImuAndVelocity, StateEstimator.clear, hprop,
        Propagation.asImuPropagation, ImuPropagation.get_sensor_data_buffer_ptr, hb, hl]⟩
    | done v0_body => exact ⟨_, initState_of_done fresh indeterminate e p m ms v0_body hprop hb hl⟩

theorem run_once_enabled (Propagate : Propagation → RobotState → CallResult Propagation)
    (Correct : Correction → RobotState → CallResult Correction) (e e' : StateEstimator)
    (h : e.run_once Propagate Correct = some e') : e'.enabled_ = e.enabled_ := by
  cases hp : e.propagation_ with
  | none => simp [StateEstimator.run_once, hp] at h
  | some prop =>
    obtain ⟨e2, he2, -, -, -, hen, -⟩ := run_once_eq Propagate Correct e prop hp
    rw [he2] at h
    cases h
    exact hen

theorem apply_enabled (env : Collaborators) (op : Operation) (e e' : StateEstimator)
    (henabled : e.enabled_ = true) (h : op.apply env e = some e') : e'.enabled_ = true := by
  cases op with
  | run_once =>
    rw [run_once_enabled env.Propagate env.Correct e e' h]
    exact henabled
  | set_state state =>
    cases h
    exact henabled
  | add_imu_propagation b eb i =>
    cases h
    exact henabled
  | add_kinematics_correction b a =>
    cases h
    exact henabled
  | add_velocity_correction b c =>
    cases h
    exact henabled
  | enableFilter =>
    cases h
    rfl
  | initBias =>
    obtain ⟨prop, -, hcase⟩ := initBias_cases env.InitImuBias e e' h
    rcases hcase with ⟨-, rfl⟩ | ⟨p, -, rfl⟩
    · exact henabled
    · exact henabled
  | initStateByImuAndVelocity v =>
    rcases initState_cases env.fresh v e e' h with rfl | ⟨st, rfl⟩
    · exact henabled
    · rfl
  | clear =>
    cases h
    exact henabled

theorem firstVelocityCorrection_append (kins : List KinematicsCorrection)
    (vc : VelocityCorrection) (post : List Correction) :
    firstVelocityCorrection (kins.map Correction.kinematics ++ Correction.velocity vc :: post) =
      some vc := by
  induction kins with
  | nil => simp [firstVelocityCorrection_velocity]
  | cons k ks ih =>
    simp only [List.map_cons, List.cons_append]
    rw [firstVelocityCorrection_kinematics, ih]

theorem estimatorLoopStep_of_disabled (env : Collaborators) (indeterminate : Vector3d)
    (e : StateEstimator) (p : ImuPropagation) (hdisabled : e.enabled_ = false)
    (hprop : e.propagation_ = some (Propagation.imu p)) :
    e.biasInitialized = some p.bias_initialized ∧
    estimatorLoopStep env indeterminate e =
      if p.bias_initialized then e.initStateByImuAndVelocity env.fresh indeterminate
      else e.initBias env.InitImuBias := by
  have hb : e.biasInitialized = some p.bias_initialized := by
    simp [StateEstimator.biasInitialized, hprop, Propagation.get_propagation_type,
      Propagation.asImuPropagation, ImuPropagation.get_bias_initialized]
  refine ⟨hb, ?_⟩
  simp only [estimatorLoopStep, StateEstimator.enabled, hdisabled, Bool.false_eq_true,
    if_false, hb]
  cases p.bias_initialized <;> rfl

theorem initBias_of_imu (InitImuBias : ImuPropagation → ImuPropagation) (e : StateEstimator)
    (p : ImuPropagation) (hprop : e.propagation_ = some (Propagation.imu p)) :
    e.initBias InitImuBias =
      some { e with propagation_ := some (Propagation.imu (InitImuBias p)) } := by
  simp [StateEstimator.initBias, hprop, Propagation.get_propagation_type,
    Propagation.asImuPropagation]

theorem deliver_before (a : Arrival) (e : StateEstimator) (h : BeforeRunning e) :
    BeforeRunning (a.deliver e) := by
  obtain ⟨⟨prop, hprop⟩, hdis⟩ := h
  cases a with
  | imu m =>
    cases prop with
    | imu p =>
      simp only [Arrival.deliver, hprop]
      exact ⟨⟨_, rfl⟩, fun hd => ⟨(hdis hd).1, _, rfl⟩⟩
    | base id =>
      simp only [Arrival.deliver, hprop]
      exact ⟨⟨_, hprop⟩, hdis⟩
  | velocity i m => exact ⟨⟨prop, hprop⟩, hdis⟩
  | kinematics i m => exact ⟨⟨prop, hprop⟩, hdis⟩

theorem deliverAll_before (arrivals : List Arrival) (e : StateEstimator) (h : BeforeRunning e) :
    BeforeRunning (deliverAll arrivals e) := by
  induction arrivals generalizing e with
  | nil => exact h
  | cons a rest ih => exact ih (a.deliver e) (deliver_before a e h)

theorem estimatorLoopStep_before (env : Collaborators) (indeterminate : Vector3d)
    (e : StateEstimator) (h : BeforeRunning e) :
    ∃ e', estimatorLoopStep env indeterminate e = some e' ∧ BeforeRunning e' := by
  obtain ⟨⟨prop, hprop⟩, hdis⟩ := h
  cases hen : e.enabled_ with
  | false =>
    obtain ⟨hq, p, hp⟩ := hdis hen
    rw [(estimatorLoopStep_of_disabled env indeterminate e p hen hp).2]
    cases p.bias_initialized with
    | true =>
      obtain ⟨e', he'⟩ := initState_defined env.fresh indeterminate e p hp
      refine ⟨e', by simpa using he', ?_⟩
      rcases initState_cases env.fresh indeterminate e e' he' with rfl | ⟨st, rfl⟩
      · exact ⟨⟨prop, hprop⟩, hdis⟩
      · exact ⟨⟨prop, hprop⟩, fun hd => by simp at hd⟩
    | false =>
      refine ⟨_, by simpa using initBias_of_imu env.InitImuBias e p hp, ⟨_, rfl⟩, ?_⟩
      intro _
      exact ⟨hq, _, rfl⟩
  | true =>
    obtain ⟨e', he', hp', -, -, hen', -⟩ := run_once_eq env.Propagate env.Correct e prop hprop
    refine ⟨e', by simpa [estimatorLoopStep, StateEstimator.enabled, hen] using he',
      ⟨_, hp'⟩, ?_⟩
    intro hd
    rw [hen', hen] at hd
    cases hd

theorem estimatorLoop_before (env : Collaborators) (passes : List LoopPass)
    (e : StateEstimator) (h : BeforeRunning e) :
    ∃ e', estimatorLoop env passes e = some e' ∧ BeforeRunning e' := by
  induction passes generalizing e with
  | nil => exact ⟨e, rfl, h⟩
  | cons pass rest ih =>
    obtain ⟨e1, he1, hb1⟩ := estimatorLoopStep_before env pass.indeterminate e h
    obtain ⟨e2, he2, hb2⟩ := ih (deliverAll pass.arrivals e1) (deliverAll_before _ _ hb1)
    exact ⟨e2, by simp [estimatorLoop, estimatorLoopPass, he1, he2], hb2⟩

theorem routine_unique (env : Collaborators) (indeterminate : Vector3d) (e : StateEstimator)
    (h : BeforeRunning e) :
    ∃! r : Routine, r.reached e = true ∧
      ∃ e', r.run env indeterminate e = some e' ∧
        estimatorLoopStep env indeterminate e = some e' := by
  obtain ⟨e', he', -⟩ := estimatorLoopStep_before env indeterminate e h
  obtain ⟨⟨prop, hprop⟩, hdis⟩ := h
  cases hen : e.enabled_ with
  | true =>
    refine ⟨Routine.RunOnce, ⟨by simp [Routine.reached, StateEstimator.enabled, hen], e', ?_,
      he'⟩, ?_⟩
    · simpa [Routine.run, estimatorLoopStep, StateEstimator.enabled, hen] using he'
    · intro r hr
      cases r <;> simp [Routine.reached, StateEstimator.enabled, hen] at hr ⊢
  | false =>
    obtain ⟨-, p, hp⟩ := hdis hen
    obtain ⟨hb, hstep⟩ := estimatorLoopStep_of_disabled env indeterminate e p hen hp
    cases hflag : p.bias_initialized with
    | true =>
      rw [hflag] at hb hstep
      refine ⟨Routine.InitState, ⟨by simp [Routine.reached, StateEstimator.enabled, hen, hb],
        e', ?_, he'⟩, ?_⟩
      · rw [← he', hstep]
        simp [Routine.run]
      · intro r hr
        cases r <;> simp [Routine.reached, StateEstimator.enabled, hen, hb] at hr ⊢
    | false =>
      rw [hflag] at hb hstep
      refine ⟨Routine.InitBias, ⟨by simp [Routine.reached, StateEstimator.enabled, hen, hb],
        e', ?_, he'⟩, ?_⟩
      · rw [← he', hstep]
        simp [Routine.run]
      · intro r hr
        cases r <;> simp [Routine.reached, StateEstimator.enabled, hen, hb] at hr ⊢

/-! ## The cycle -/

/-- C1: for every estimator with a propagation, whatever `new_pose_ready_` was
left at and whatever `Propagate` and `Correct` do, `run_once` returns; the state
afterwards is the one left by propagation followed by all corrections; if
`Propagate` or some `Correct` returned true the output queue afterwards is the
queue before with exactly that state appended at the back, and otherwise the
output queue is unchanged. -/
theorem run_once_publishes_one_snapshot
    (Propagate : Propagation → RobotState → CallResult Propagation)
    (Correct : Correction → RobotState → CallResult Correction)
    (e : StateEstimator) (prop : Propagation) (hprop : e.propagation_ = some prop) :
    ∃ e', e.run_once Propagate Correct = some e' ∧
      e'.state_ = stateBefore Correct e.corrections_ (Propagate prop e.state_).state
        e.corrections_.length ∧
      (((Propagate prop e.state_).ret = true ∨
          someCorrectReturnedTrue Correct e.corrections_ (Propagate prop e.state_).state) →
        e'.robot_state_queue_ = e.robot_state_queue_ ++ [e'.state_]) ∧
      (¬ ((Propagate prop e.state_).ret = true ∨
          someCorrectReturnedTrue Correct e.corrections_ (Propagate prop e.state_).state) →
        e'.robot_state_queue_ = e.robot_state_queue_) := by
  have hready := correctLoop_ready Correct e.corrections_ (Propagate prop e.state_).state
    (Propagate prop e.state_).ret
  have hstate := correctLoop_state Correct e.corrections_ (Propagate prop e.state_).state
    (Propagate prop e.state_).ret
  by_cases hany : (Propagate prop e.state_).ret = true ∨
      someCorrectReturnedTrue Correct e.corrections_ (Propagate prop e.state_).state
  · have hflag := hready.mpr hany
    refine ⟨_, by simp only [StateEstimator.run_once, hprop]; rfl, ?_, ?_, ?_⟩
    · simp only [hflag, if_true]
      exact hstate
    · intro _
      simp only [hflag, if_true]
    · intro hn
      exact absurd hany hn
  · have hflag : (correctLoop Correct e.corrections_ (Propagate prop e.state_).state
        (Propagate prop e.state_).ret).2.2 = false := by
      cases hb : (correctLoop Correct e.corrections_ (Propagate prop e.state_).state
        (Propagate prop e.state_).ret).2.2
      · rfl
      · exact absurd (hready.mp hb) hany
    refine ⟨_, by simp only [StateEstimator.run_once, hprop]; rfl, ?_, ?_, ?_⟩
    · simp only [hflag]
      exact hstate
    · intro hy
      exact absurd hy hany
    · intro _
      simp only [hflag]
      rfl

/-- Witness of C1 on `startEstimator`. -/
theorem run_once_publishes_one_snapshot_witness :
    startEstimator.propagation_ = some (Propagation.imu readyImu) ∧
    ∃ e', startEstimator.run_once frontPropagate frontCorrect = some e' ∧
      e'.state_ = stateBefore frontCorrect startEstimator.corrections_
        (frontPropagate (Propagation.imu readyImu) startEstimator.state_).state
        startEstimator.corrections_.length ∧
      (((frontPropagate (Propagation.imu readyImu) startEstimator.state_).ret = true ∨
          someCorrectReturnedTrue frontCorrect startEstimator.corrections_
            (frontPropagate (Propagation.imu readyImu) startEstimator.state_).state) →
        e'.robot_state_queue_ = startEstimator.robot_state_queue_ ++ [e'.state_]) ∧
      (¬ ((frontPropagate (Propagation.imu readyImu) startEstimator.state_).ret = true ∨
          someCorrectReturnedTrue frontCorrect startEstimator.corrections_
            (frontPropagate (Propagation.imu readyImu) startEstimator.state_).state) →
        e'.robot_state_queue_ = startEstimator.robot_state_queue_) :=
  ⟨rfl, run_once_publishes_one_snapshot frontPropagate frontCorrect startEstimator
    (Propagation.imu readyImu) rfl⟩

/-- C2: after any sequence of `add_kinematics_correction` and
`add_velocity_correction` calls the list of corrections is the list before with
the new corrections appended in the order of the calls; one `run_once` cycle on
it calls `Propagate` on the propagation and the state of the estimator, and then
leaves at every position `i` of the list the object of the call of `Correct` on
the correction registered at position `i`, made on the state left by the step
before it (`Propagate` for position 0, the call at position `i - 1` otherwise),
whatever any call returned; the state of the estimator is the one left by the
last call. -/
theorem run_once_calls_in_registration_order
    (Propagate : Propagation → RobotState → CallResult Propagation)
    (Correct : Correction → RobotState → CallResult Correction)
    (e : StateEstimator) (regs : List Registration) (prop : Propagation)
    (hprop : e.propagation_ = some prop) :
    (e.register regs).corrections_ =
        e.corrections_ ++ regs.map (Registration.correction e.error_type_) ∧
    ∃ e', (e.register regs).run_once Propagate Correct = some e' ∧
      e'.propagation_ = some (Propagate prop e.state_).obj ∧
      e'.corrections_.length = (e.register regs).corrections_.length ∧
      (∀ i, e'.corrections_[i]? =
        (callAt Correct (e.register regs).corrections_ (Propagate prop e.state_).state i).map
          (fun r => r.obj)) ∧
      (∀ i, callAt Correct (e.register regs).corrections_ (Propagate prop e.state_).state i =
        (e.register regs).corrections_[i]?.map (fun c => Correct c
          (stateBefore Correct (e.register regs).corrections_ (Propagate prop e.state_).state i))) ∧
      stateBefore Correct (e.register regs).corrections_ (Propagate prop e.state_).state 0 =
        (Propagate prop e.state_).state ∧
      (∀ i c, (e.register regs).corrections_[i]? = some c →
        stateBefore Correct (e.register regs).corrections_ (Propagate prop e.state_).state (i + 1) =
          (Correct c (stateBefore Correct (e.register regs).corrections_
            (Propagate prop e.state_).state i)).state) ∧
      e'.state_ = stateBefore Correct (e.register regs).corrections_
        (Propagate prop e.state_).state (e.register regs).corrections_.length := by
  obtain ⟨hcorr, hp, hs, -, -, -⟩ := register_frame e regs
  refine ⟨hcorr, ?_⟩
  obtain ⟨e', he', hprop', hc', hs', -⟩ :=
    run_once_eq Propagate Correct (e.register regs) prop (by rw [hp, hprop])
  rw [hs] at hprop' hc' hs'
  refine ⟨e', he', hprop', ?_, ?_, ?_, ?_, ?_, ?_⟩
  · rw [hc', correctLoop_length]
  · intro i
    rw [hc', correctLoop_objs]
  · intro i
    rfl
  · rfl
  · intro i c hc
    rw [stateBefore, hc]
  · rw [hs', correctLoop_state]

/-- Witness of C2: a kinematics and a velocity correction are registered on an
estimator without corrections. -/
theorem run_once_calls_in_registration_order_witness :
    bareEstimator.propagation_ = some (Propagation.imu readyImu) ∧
    ((bareEstimator.register twoRegistrations).corrections_ =
        bareEstimator.corrections_ ++
          twoRegistrations.map (Registration.correction bareEstimator.error_type_) ∧
    ∃ e', (bareEstimator.register twoRegistrations).run_once frontPropagate frontCorrect =
        some e' ∧
      e'.propagation_ =
        some (frontPropagate (Propagation.imu readyImu) bareEstimator.state_).obj ∧
      e'.corrections_.length = (bareEstimator.register twoRegistrations).corrections_.length ∧
      (∀ i, e'.corrections_[i]? =
        (callAt frontCorrect (bareEstimator.register twoRegistrations).corrections_
          (frontPropagate (Propagation.imu readyImu) bareEstimator.state_).state i).map
          (fun r => r.obj)) ∧
      (∀ i, callAt frontCorrect (bareEstimator.register twoRegistrations).corrections_
          (frontPropagate (Propagation.imu readyImu) bareEstimator.state_).state i =
        (bareEstimator.register twoRegistrations).corrections_[i]?.map (fun c => frontCorrect c
          (stateBefore frontCorrect (bareEstimator.register twoRegistrations).corrections_
            (frontPropagate (Propagation.imu readyImu) bareEstimator.state_).state i))) ∧
      stateBefore frontCorrect (bareEstimator.register twoRegistrations).corrections_
          (frontPropagate (Propagation.imu readyImu) bareEstimator.state_).state 0 =
        (frontPropagate (Propagation.imu readyImu) bareEstimator.state_).state ∧
      (∀ i c, (bareEstimator.register twoRegistrations).corrections_[i]? = some c →
        stateBefore frontCorrect (bareEstimator.register twoRegistrations).corrections_
            (frontPropagate (Propagation.imu readyImu) bareEstimator.state_).state (i + 1) =
          (frontCorrect c (stateBefore frontCorrect
            (bareEstimator.register twoRegistrations).corrections_
            (frontPropagate (Propagation.imu readyImu) bareEstimator.state_).state i)).state) ∧
      e'.state_ = stateBefore frontCorrect (bareEstimator.register twoRegistrations).corrections_
        (frontPropagate (Propagation.imu readyImu) bareEstimator.state_).state
        (bareEstimator.register twoRegistrations).corrections_.length) :=
  ⟨rfl, run_once_calls_in_registration_order frontPropagate frontCorrect bareEstimator
    twoRegistrations (Propagation.imu readyImu) rfl⟩

/-! ## State initialisation -/

/-- C3: for every estimator with an IMU propagation whose buffer is not empty and
whose first registered velocity correction has a buffer that is not empty,
`initStateByImuAndVelocity` returns with rotation the identity, position
(0, 0, 0), velocity the identity rotation applied to the body velocity of the
front sample of that velocity buffer, which is that body velocity itself, gyroscope
and accelerometer bias the estimated biases of the propagation, state time the time
stamp of the front IMU sample, and the enabled flag true. -/
theorem initStateByImuAndVelocity_sets_mean
    (fresh : RobotState) (indeterminate : Vector3d) (e : StateEstimator)
    (imu_propagation : ImuPropagation) (imu_packet_in : ImuMeasurement)
    (imu_rest : List ImuMeasurement) (vc : VelocityCorrection)
    (velocity_packet_in : VelocityMeasurement) (velocity_rest : List VelocityMeasurement)
    (hprop : e.propagation_ = some (Propagation.imu imu_propagation))
    (himu : imu_propagation.sensor_data_buffer = imu_packet_in :: imu_rest)
    (hfirst : firstVelocityCorrection e.corrections_ = some vc)
    (hvel : vc.sensor_data_buffer = velocity_packet_in :: velocity_rest) :
    ∃ e', e.initStateByImuAndVelocity fresh indeterminate = some e' ∧
      e'.state_.rotation = 1 ∧
      e'.state_.position = ![0, 0, 0] ∧
      e'.state_.velocity = (1 : Matrix3d).mulVec velocity_packet_in.velocity ∧
      e'.state_.velocity = velocity_packet_in.velocity ∧
      e'.state_.gyroscope_bias = imu_propagation.get_estimate_gyro_bias ∧
      e'.state_.accelerometer_bias = imu_propagation.get_estimate_accel_bias ∧
      e'.state_.time = imu_packet_in.time ∧
      e'.enabled = true := by
  have hloop : velocityLoop e.corrections_ indeterminate =
      VelocityLoopExit.done velocity_packet_in.velocity := by
    rw [velocityLoop_eq, hfirst]
    simp only [hvel]
  refine ⟨_, initState_of_done fresh indeterminate e imu_propagation imu_packet_in imu_rest
    velocity_packet_in.velocity hprop himu hloop, rfl, rfl, ?_, rfl, rfl, rfl, rfl, rfl⟩
  rw [Matrix.one_mulVec]

/-- Witness of C3 on `startEstimator`, whose velocity correction is registered
after a kinematics correction. -/
theorem initStateByImuAndVelocity_sets_mean_witness :
    startEstimator.propagation_ = some (Propagation.imu readyImu) ∧
    readyImu.sensor_data_buffer = imuSample :: [] ∧
    firstVelocityCorrection startEstimator.corrections_ = some readyVelocity ∧
    readyVelocity.sensor_data_buffer = velocitySample :: [] ∧
    ∃ e', startEstimator.initStateByImuAndVelocity zeroState 0 = some e' ∧
      e'.state_.rotation = 1 ∧
      e'.state_.position = ![0, 0, 0] ∧
      e'.state_.velocity = (1 : Matrix3d).mulVec velocitySample.velocity ∧
      e'.state_.velocity = velocitySample.velocity ∧
      e'.state_.gyroscope_bias = readyImu.get_estimate_gyro_bias ∧
      e'.state_.accelerometer_bias = readyImu.get_estimate_accel_bias ∧
      e'.state_.time = imuSample.time ∧
      e'.enabled = true :=
  ⟨rfl, rfl, rfl, rfl, initStateByImuAndVelocity_sets_mean zeroState 0 startEstimator readyImu
    imuSample [] readyVelocity velocitySample [] rfl rfl rfl rfl⟩

/-- C4: for every successful `initStateByImuAndVelocity` (IMU buffer and buffer of
the first velocity correction not empty) the covariance blocks of the resulting
state are diagonal with the documented defaults on the diagonal: rotation 0.03,
velocity 0.01, position 1e-5, gyroscope bias 1e-4, accelerometer bias 2.5e-3; and
the resulting state is the same whatever the state of the estimator was before the
call. -/
theorem initStateByImuAndVelocity_sets_covariance
    (fresh : RobotState) (indeterminate : Vector3d) (e : StateEstimator)
    (imu_propagation : ImuPropagation) (imu_packet_in : ImuMeasurement)
    (imu_rest : List ImuMeasurement) (vc : VelocityCorrection)
    (velocity_packet_in : VelocityMeasurement) (velocity_rest : List VelocityMeasurement)
    (hprop : e.propagation_ = some (Propagation.imu imu_propagation))
    (himu : imu_propagation.sensor_data_buffer = imu_packet_in :: imu_rest)
    (hfirst : firstVelocityCorrection e.corrections_ = some vc)
    (hvel : vc.sensor_data_buffer = velocity_packet_in :: velocity_rest) :
    ∃ e', e.initStateByImuAndVelocity fresh indeterminate = some e' ∧
      (∀ i j, e'.state_.rotation_covariance i j = if i = j then 0.03 else 0) ∧
      (∀ i j, e'.state_.velocity_covariance i j = if i = j then 0.01 else 0) ∧
      (∀ i j, e'.state_.position_covariance i j = if i = j then 1e-5 else 0) ∧
      (∀ i j, e'.state_.gyroscope_bias_covariance i j = if i = j then 1e-4 else 0) ∧
      (∀ i j, e'.state_.accelerometer_bias_covariance i j = if i = j then 2.5e-3 else 0) ∧
      ∀ previous : RobotState, ∃ e'',
        (e.set_state previous).initStateByImuAndVelocity fresh indeterminate = some e'' ∧
        e''.state_ = e'.state_ := by
  have hloop : velocityLoop e.corrections_ indeterminate =
      VelocityLoopExit.done velocity_packet_in.velocity := by
    rw [velocityLoop_eq, hfirst]
    simp only [hvel]
  refine ⟨_, initState_of_done fresh indeterminate e imu_propagation imu_packet_in imu_rest
    velocity_packet_in.velocity hprop himu hloop, ?_, ?_, ?_, ?_, ?_, ?_⟩
  · intro i j
    simp only [Matrix.smul_apply, Matrix.one_apply, smul_eq_mul]
    split <;> norm_num
  · intro i j
    simp only [Matrix.smul_apply, Matrix.one_apply, smul_eq_mul]
    split <;> norm_num
  · intro i j
    simp only [Matrix.smul_apply, Matrix.one_apply, smul_eq_mul]
    split <;> norm_num
  · intro i j
    simp only [Matrix.smul_apply, Matrix.one_apply, smul_eq_mul]
    split <;> norm_num
  · intro i j
    simp only [Matrix.smul_apply, Matrix.one_apply, smul_eq_mul]
    split <;> norm_num
  · intro previous
    exact ⟨_, initState_of_done fresh indeterminate (e.set_state previous) imu_propagation
      imu_packet_in imu_rest velocity_packet_in.velocity hprop himu hloop, rfl⟩

/-- Witness of C4 on `startEstimator`. -/
theorem initStateByImuAndVelocity_sets_covariance_witness :
    startEstimator.propagation_ = some (Propagation.imu readyImu) ∧
    readyImu.sensor_data_buffer = imuSample :: [] ∧
    firstVelocityCorrection startEstimator.corrections_ = some readyVelocity ∧
    readyVelocity.sensor_data_buffer = velocitySample :: [] ∧
    ∃ e', startEstimator.initStateByImuAndVelocity zeroState 0 = some e' ∧
      (∀ i j, e'.state_.rotation_covariance i j = if i = j then 0.03 else 0) ∧
      (∀ i j, e'.state_.velocity_covariance i j = if i = j then 0.01 else 0) ∧
      (∀ i j, e'.state_.position_covariance i j = if i = j then 1e-5 else 0) ∧
      (∀ i j, e'.state_.gyroscope_bias_covariance i j = if i = j then 1e-4 else 0) ∧
      (∀ i j, e'.state_.accelerometer_bias_covariance i j = if i = j then 2.5e-3 else 0) ∧
      ∀ previous : RobotState, ∃ e'',
        (startEstimator.set_state previous).initStateByImuAndVelocity zeroState 0 = some e'' ∧
        e''.state_ = e'.state_ :=
  ⟨rfl, rfl, rfl, rfl, initStateByImuAndVelocity_sets_covariance zeroState 0 startEstimator
    readyImu imuSample [] readyVelocity velocitySample [] rfl rfl rfl rfl⟩

/-- C5: the code breaks the claim on `leggedEstimator`, which is not enabled, has
one sample in its IMU buffer, no velocity correction and one kinematics correction
whose buffer is empty.  No velocity sample and no kinematics sample is available,
and yet, whatever the unassigned `v0_body` of line 175 holds, the call returns with
the enabled flag true and with that content as the velocity of the state; the
sibling path of lines 184-187 returns without enabling when no velocity sample is
at hand. -/
theorem initStateByImuAndVelocity_enables_without_sample :
    leggedEstimator.enabled = false ∧
    (leggedEstimator.initStateByImuAndVelocity zeroState 0).map StateEstimator.enabled =
      some true ∧
    firstVelocityCorrection leggedEstimator.corrections_ = none ∧
    (∀ c ∈ leggedEstimator.corrections_, ∀ vc, c = Correction.velocity vc →
      vc.sensor_data_buffer = []) ∧
    (∀ c ∈ leggedEstimator.corrections_, ∀ kc, c = Correction.kinematics kc →
      kc.sensor_data_buffer = []) ∧
    ∀ indeterminate : Vector3d,
      ∃ e', leggedEstimator.initStateByImuAndVelocity zeroState indeterminate = some e' ∧
        e'.enabled = true ∧ e'.state_.velocity = indeterminate := by
  refine ⟨rfl, rfl, rfl, ?_, ?_, ?_⟩
  · intro c hc vc hvc
    subst hvc
    simp [leggedEstimator] at hc
  · intro c hc kc hkc
    subst hkc
    simp [leggedEstimator] at hc
    subst hc
    rfl
  · intro indeterminate
    exact ⟨_, initState_of_done zeroState indeterminate leggedEstimator readyImu imuSample []
      indeterminate rfl rfl rfl, rfl, rfl⟩

/-- The defect is confined to estimators without a velocity correction: if
`initStateByImuAndVelocity` turns the enabled flag from false to true, then the
estimator has an IMU propagation whose buffer held at least one sample, and, when
a velocity correction is registered, the buffer of the first registered velocity
correction held a sample at its front. -/
theorem initStateByImuAndVelocity_enables_only_with_samples
    (fresh : RobotState) (indeterminate : Vector3d) (e : StateEstimator)
    (hbefore : e.enabled = false)
    (hafter : (e.initStateByImuAndVelocity fresh indeterminate).map StateEstimator.enabled =
      some true) :
    (∃ imu_propagation imu_packet_in imu_rest,
      e.propagation_ = some (Propagation.imu imu_propagation) ∧
      imu_propagation.sensor_data_buffer = imu_packet_in :: imu_rest) ∧
    ∀ vc, firstVelocityCorrection e.corrections_ = some vc →
      ∃ velocity_packet_in velocity_rest,
        vc.sensor_data_buffer = velocity_packet_in :: velocity_rest := by
  simp only [StateEstimator.enabled] at hbefore
  cases hp : e.propagation_ with
  | none =>
    simp [StateEstimator.initStateByImuAndVelocity, StateEstimator.clear, hp] at hafter
  | some prop =>
    cases prop with
    | base id =>
      simp [StateEstimator.initStateByImuAndVelocity, StateEstimator.clear, hp,
        Propagation.asImuPropagation] at hafter
    | imu p =>
      cases hb : p.sensor_data_buffer with
      | nil =>
        simp [StateEstimator.initStateByImuAndVelocity, StateEstimator.clear, hp,
          Propagation.asImuPropagation, ImuPropagation.get_sensor_data_buffer_ptr, hb,
          StateEstimator.enabled, hbefore] at hafter
      | cons m ms =>
        refine ⟨⟨p, m, ms, rfl, hb⟩, ?_⟩
        intro vc hvc
        cases hv : vc.sensor_data_buffer with
        | nil =>
          have hloop : velocityLoop e.corrections_ indeterminate =
              VelocityLoopExit.returned := by
            rw [velocityLoop_eq, hvc]
            simp only [hv]
          simp [StateEstimator.initStateByImuAndVelocity, StateEstimator.clear, hp,
            Propagation.asImuPropagation, ImuPropagation.get_sensor_data_buffer_ptr, hb,
            hloop, StateEstimator.enabled, hbefore] at hafter
        | cons v vs => exact ⟨v, vs, rfl⟩

/-- C6: for every estimator with an IMU propagation, if the IMU buffer is empty, or
it is not empty but the buffer of the first registered velocity correction is
empty, then `initStateByImuAndVelocity` returns the estimator exactly as it was:
robot state, enabled flag, correction list and output queue included; and
`clear` changes nothing. -/
theorem initStateByImuAndVelocity_failure_is_atomic
    (fresh : RobotState) (indeterminate : Vector3d) (e : StateEstimator)
    (imu_propagation : ImuPropagation)
    (hprop : e.propagation_ = some (Propagation.imu imu_propagation))
    (hempty : imu_propagation.sensor_data_buffer = [] ∨
      (imu_propagation.sensor_data_buffer ≠ [] ∧
        ∃ vc, firstVelocityCorrection e.corrections_ = some vc ∧ vc.sensor_data_buffer = [])) :
    e.initStateByImuAndVelocity fresh indeterminate = some e ∧ e.clear = e ∧
    ∀ e', e.initStateByImuAndVelocity fresh indeterminate = some e' →
      e'.state_ = e.state_ ∧ e'.enabled = e.enabled ∧ e'.corrections_ = e.corrections_ ∧
      e'.robot_state_queue_ = e.robot_state_queue_ := by
  have hsame : e.initStateByImuAndVelocity fresh indeterminate = some e := by
    rcases hempty with hb | ⟨hne, vc, hvc, hv⟩
    · simp [StateEstimator.initStateByImuAndVelocity, StateEstimator.clear, hprop,
        Propagation.asImuPropagation, ImuPropagation.get_sensor_data_buffer_ptr, hb]
    · have hloop : velocityLoop e.corrections_ indeterminate = VelocityLoopExit.returned := by
        rw [velocityLoop_eq, hvc]
        simp only [hv]
      cases hb : imu_propagation.sensor_data_buffer with
      | nil => exact absurd hb hne
      | cons m ms =>
        simp [StateEstimator.initStateByImuAndVelocity, StateEstimator.clear, hprop,
          Propagation.asImuPropagation, ImuPropagation.get_sensor_data_buffer_ptr, hb, hloop]
  refine ⟨hsame, rfl, ?_⟩
  intro e' he'
  rw [hsame] at he'
  cases he'
  exact ⟨rfl, rfl, rfl, rfl⟩

/-- Witness of C6 on `starvedEstimator`: an IMU sample is there, the buffer of the
first velocity correction is empty. -/
theorem initStateByImuAndVelocity_failure_is_atomic_witness :
    starvedEstimator.propagation_ = some (Propagation.imu readyImu) ∧
    (readyImu.sensor_data_buffer = [] ∨
      (readyImu.sensor_data_buffer ≠ [] ∧
        ∃ vc, firstVelocityCorrection starvedEstimator.corrections_ = some vc ∧
          vc.sensor_data_buffer = [])) ∧
    (starvedEstimator.initStateByImuAndVelocity zeroState 0 = some starvedEstimator ∧
    starvedEstimator.clear = starvedEstimator ∧
    ∀ e', starvedEstimator.initStateByImuAndVelocity zeroState 0 = some e' →
      e'.state_ = starvedEstimator.state_ ∧ e'.enabled = starvedEstimator.enabled ∧
      e'.corrections_ = starvedEstimator.corrections_ ∧
      e'.robot_state_queue_ = starvedEstimator.robot_state_queue_) :=
  ⟨rfl, Or.inr ⟨by simp [readyImu], starvedVelocity, rfl, rfl⟩,
    initStateByImuAndVelocity_failure_is_atomic zeroState 0 starvedEstimator readyImu rfl
      (Or.inr ⟨by simp [readyImu], starvedVelocity, rfl, rfl⟩)⟩

/-! ## Before and after initialisation -/

/-- C7, as the spec states it, fails on `coldEstimator`, which is not enabled and
whose bias is not initialised: `run_once`, with `Propagate` as the spec describes
it, takes the IMU sample out of the buffer and appends a snapshot to the output
queue. -/
theorem run_once_before_initialisation_publishes :
    coldEstimator.enabled = false ∧
    coldEstimator.biasInitialized = some false ∧
    coldEstimator.robot_state_queue_ = [] ∧
    ∃ e', coldEstimator.run_once (Propagation.Propagate 2 holdState) frontCorrect = some e' ∧
      e'.robot_state_queue_ = [coldEstimator.state_] ∧
      e'.propagation_ = some (Propagation.imu { coldImu with sensor_data_buffer := [] }) := by
  refine ⟨rfl, rfl, rfl, _, rfl, ?_, ?_⟩
  · rfl
  · simp [coldEstimator, coldImu, readyImu, imuSample, Propagation.Propagate,
      ImuPropagation.Propagate, bareEstimator, startEstimator, correctLoop]

/-- C7, amended: `run_once` does not test the enabled flag: on an estimator whose
flag is false it does what it does on the same estimator with the flag true, and
leaves the flag false.  The no-op before initialisation is the work of the
estimator loop: while the flag is false a pass of the loop calls
`initStateByImuAndVelocity` or `initBias` and not `run_once`, and on an estimator
with an IMU propagation that pass returns and leaves the output queue unchanged. -/
theorem run_once_not_guarded_by_enabled
    (env : Collaborators) (indeterminate : Vector3d) (e : StateEstimator)
    (hdisabled : e.enabled = false) :
    e.run_once env.Propagate env.Correct =
      (({ e with enabled_ := true } : StateEstimator).run_once env.Propagate env.Correct).map
        (fun r => { r with enabled_ := false }) ∧
    estimatorLoopStep env indeterminate e =
      (match e.biasInitialized with
        | none => none
        | some true => e.initStateByImuAndVelocity env.fresh indeterminate
        | some false => e.initBias env.InitImuBias) ∧
    ∀ p, e.propagation_ = some (Propagation.imu p) →
      ∃ e', estimatorLoopStep env indeterminate e = some e' ∧
        e'.robot_state_queue_ = e.robot_state_queue_ := by
  simp only [StateEstimator.enabled] at hdisabled
  refine ⟨?_, ?_, ?_⟩
  · cases hp : e.propagation_ with
    | none => simp [StateEstimator.run_once, hp]
    | some prop =>
      simp only [StateEstimator.run_once, hp, Option.map_some']
      split <;> simp [hdisabled]
  · simp [estimatorLoopStep, StateEstimator.enabled, hdisabled]
  · intro p hp
    simp only [estimatorLoopStep, StateEstimator.enabled, hdisabled, Bool.false_eq_true,
      if_false, StateEstimator.biasInitialized, hp, Propagation.get_propagation_type,
      Propagation.asImuPropagation, ne_eq, not_true_eq_false]
    cases hb : p.get_bias_initialized with
    | true =>
      obtain ⟨e', he'⟩ := initState_defined env.fresh indeterminate e p hp
      refine ⟨e', he', ?_⟩
      rcases initState_cases env.fresh indeterminate e e' he' with rfl | ⟨st, rfl⟩ <;> rfl
    | false =>
      refine ⟨{ e with propagation_ := some (Propagation.imu (env.InitImuBias p)) }, ?_, rfl⟩
      simp [StateEstimator.initBias, hp, Propagation.get_propagation_type,
        Propagation.asImuPropagation]

/-- Witness of the amended C7 on `coldEstimator`. -/
theorem run_once_not_guarded_by_enabled_witness :
    coldEstimator.enabled = false ∧
    (coldEstimator.run_once sampleCollaborators.Propagate sampleCollaborators.Correct =
      (({ coldEstimator with enabled_ := true } : StateEstimator).run_once
        sampleCollaborators.Propagate sampleCollaborators.Correct).map
        (fun r => { r with enabled_ := false }) ∧
    estimatorLoopStep sampleCollaborators 0 coldEstimator =
      (match coldEstimator.biasInitialized with
        | none => none
        | some true => coldEstimator.initStateByImuAndVelocity sampleCollaborators.fresh 0
        | some false => coldEstimator.initBias sampleCollaborators.InitImuBias) ∧
    ∀ p, coldEstimator.propagation_ = some (Propagation.imu p) →
      ∃ e', estimatorLoopStep sampleCollaborators 0 coldEstimator = some e' ∧
        e'.robot_state_queue_ = coldEstimator.robot_state_queue_) :=
  ⟨rfl, run_once_not_guarded_by_enabled sampleCollaborators 0 coldEstimator rfl⟩

/-- C8: for every estimator whose enabled flag is true and every sequence of calls
of `run_once`, `set_state`, `add_imu_propagation`, `add_kinematics_correction`,
`add_velocity_correction`, `enableFilter`, `initBias`,
`initStateByImuAndVelocity` and `clear` (a single call included), the enabled
flag is true after the sequence and after each of its initial parts. -/
theorem enabled_is_terminal
    (env : Collaborators) (ops : List Operation) (e e' : StateEstimator)
    (henabled : e.enabled = true) (hrun : Operation.applyAll env ops e = some e') :
    e'.enabled = true ∧
    ∀ k ek, Operation.applyAll env (ops.take k) e = some ek → ek.enabled = true := by
  have key : ∀ (l : List Operation) (a b : StateEstimator), a.enabled_ = true →
      Operation.applyAll env l a = some b → b.enabled_ = true := by
    intro l
    induction l with
    | nil =>
      intro a b ha h
      cases h
      exact ha
    | cons op rest ih =>
      intro a b ha h
      simp only [Operation.applyAll] at h
      cases hop : op.apply env a with
      | none => simp [hop] at h
      | some c =>
        rw [hop] at h
        exact ih c b (apply_enabled env op a c ha hop) h
  exact ⟨key ops e e' henabled hrun, fun k ek hk => key (ops.take k) e ek henabled hk⟩

/-- Witness of C8: every operation is called once on `runningEstimator`. -/
theorem enabled_is_terminal_witness :
    runningEstimator.enabled = true ∧
    ∃ e', Operation.applyAll sampleCollaborators everyOperation runningEstimator = some e' ∧
      (e'.enabled = true ∧
        ∀ k ek, Operation.applyAll sampleCollaborators (everyOperation.take k) runningEstimator =
          some ek → ek.enabled = true) :=
  ⟨rfl, _, rfl, enabled_is_terminal sampleCollaborators everyOperation runningEstimator _ rfl rfl⟩

/-- C9: for every estimator for which `biasInitialized` returns true, `initBias`
(with `InitImuBias` as the spec describes it) returns the estimator exactly as it
was, so that `biasInitialized` still returns true; whatever `InitImuBias` does,
`initBias` leaves the robot state, the enabled flag, the correction list and the
output queue as they were; when the propagation is not of IMU type
`biasInitialized` returns true and `initBias` returns the estimator as it was,
and when it is of IMU type `biasInitialized` returns the bias-initialised flag of
the propagation. -/
theorem initBias_noop_when_bias_initialized
    (N : Nat) (g : Vector3d) (InitImuBias : ImuPropagation → ImuPropagation)
    (e : StateEstimator) (hinit : e.biasInitialized = some true) :
    e.initBias (ImuPropagation.InitImuBias N g) = some e ∧
    (∀ e', e.initBias InitImuBias = some e' →
      e'.state_ = e.state_ ∧ e'.enabled = e.enabled ∧ e'.corrections_ = e.corrections_ ∧
      e'.robot_state_queue_ = e.robot_state_queue_) ∧
    (∀ (e2 : StateEstimator) (prop : Propagation), e2.propagation_ = some prop →
      prop.get_propagation_type ≠ PropagationType.IMU →
      e2.biasInitialized = some true ∧ e2.initBias InitImuBias = some e2) ∧
    (∀ (e2 : StateEstimator) (p : ImuPropagation), e2.propagation_ = some (Propagation.imu p) →
      e2.biasInitialized = some p.get_bias_initialized) := by
  refine ⟨?_, ?_, ?_, ?_⟩
  · cases hp : e.propagation_ with
    | none => simp [StateEstimator.biasInitialized, hp] at hinit
    | some prop =>
      cases prop with
      | base id => simp [StateEstimator.initBias, hp, Propagation.get_propagation_type]
      | imu p =>
        simp [StateEstimator.biasInitialized, hp, Propagation.get_propagation_type,
          Propagation.asImuPropagation, ImuPropagation.get_bias_initialized] at hinit
        have hsame : ImuPropagation.InitImuBias N g p = p := by
          simp [ImuPropagation.InitImuBias, hinit]
        simp only [StateEstimator.initBias, hp, Propagation.get_propagation_type,
          Propagation.asImuPropagation, ne_eq, not_true_eq_false, if_false, hsame]
        rw [← hp]
  · intro e' he'
    obtain ⟨prop, -, hcase⟩ := initBias_cases InitImuBias e e' he'
    rcases hcase with ⟨-, rfl⟩ | ⟨p, -, rfl⟩
    · exact ⟨rfl, rfl, rfl, rfl⟩
    · exact ⟨rfl, rfl, rfl, rfl⟩
  · intro e2 prop hp hne
    simp [StateEstimator.biasInitialized, StateEstimator.initBias, hp, hne]
  · intro e2 p hp
    simp [StateEstimator.biasInitialized, hp, Propagation.get_propagation_type,
      Propagation.asImuPropagation]

/-- Witness of C9 on `startEstimator`, whose IMU propagation has its bias
initialised. -/
theorem initBias_noop_when_bias_initialized_witness :
    startEstimator.biasInitialized = some true ∧
    (startEstimator.initBias (ImuPropagation.InitImuBias 250 ![0, 0, -9.81]) =
      some startEstimator ∧
    (∀ e', startEstimator.initBias (fun p => { p with bias_initialized := false }) = some e' →
      e'.state_ = startEstimator.state_ ∧ e'.enabled = startEstimator.enabled ∧
      e'.corrections_ = startEstimator.corrections_ ∧
      e'.robot_state_queue_ = startEstimator.robot_state_queue_) ∧
    (∀ (e2 : StateEstimator) (prop : Propagation), e2.propagation_ = some prop →
      prop.get_propagation_type ≠ PropagationType.IMU →
      e2.biasInitialized = some true ∧
        e2.initBias (fun p => { p with bias_initialized := false }) = some e2) ∧
    (∀ (e2 : StateEstimator) (p : ImuPropagation), e2.propagation_ = some (Propagation.imu p) →
      e2.biasInitialized = some p.get_bias_initialized)) :=
  ⟨rfl, initBias_noop_when_bias_initialized 250 ![0, 0, -9.81]
    (fun p => { p with bias_initialized := false }) startEstimator rfl⟩

/-- C10: for every estimator with an IMU propagation whose buffer is not empty and
corrections of which the first velocity correction `vc` comes after kinematics
corrections only and before any corrections `post`: `vc` is the first velocity
correction; the state and the enabled flag after `initStateByImuAndVelocity` are
the same for every other choice of the kinematics corrections before `vc` and of
the corrections after it; if the buffer of `vc` is empty the call returns the
estimator as it was, whatever the buffers of the later corrections hold; and if
it is not empty the call enables the estimator with the velocity of the sample at
its front. -/
theorem initStateByImuAndVelocity_uses_first_velocity_correction
    (fresh : RobotState) (indeterminate : Vector3d) (e : StateEstimator)
    (kins : List KinematicsCorrection) (vc : VelocityCorrection) (post : List Correction)
    (imu_propagation : ImuPropagation) (imu_packet_in : ImuMeasurement)
    (imu_rest : List ImuMeasurement)
    (hprop : e.propagation_ = some (Propagation.imu imu_propagation))
    (himu : imu_propagation.sensor_data_buffer = imu_packet_in :: imu_rest) :
    firstVelocityCorrection (kins.map Correction.kinematics ++ Correction.velocity vc :: post) =
      some vc ∧
    (∀ (kins2 : List KinematicsCorrection) (post2 : List Correction),
      (({ e with corrections_ := kins2.map Correction.kinematics ++
            Correction.velocity vc :: post2 } : StateEstimator).initStateByImuAndVelocity
          fresh indeterminate).map (fun r => (r.state_, r.enabled)) =
      (({ e with corrections_ := kins.map Correction.kinematics ++
            Correction.velocity vc :: post } : StateEstimator).initStateByImuAndVelocity
          fresh indeterminate).map (fun r => (r.state_, r.enabled))) ∧
    (vc.sensor_data_buffer = [] →
      ({ e with corrections_ := kins.map Correction.kinematics ++
          Correction.velocity vc :: post } : StateEstimator).initStateByImuAndVelocity
        fresh indeterminate =
      some { e with corrections_ := kins.map Correction.kinematics ++
          Correction.velocity vc :: post }) ∧
    (∀ velocity_packet_in velocity_rest,
      vc.sensor_data_buffer = velocity_packet_in :: velocity_rest →
      ∃ e', ({ e with corrections_ := kins.map Correction.kinematics ++
          Correction.velocity vc :: post } : StateEstimator).initStateByImuAndVelocity
            fresh indeterminate = some e' ∧
        e'.state_.velocity = velocity_packet_in.velocity ∧ e'.enabled = true) := by
  have hloop : ∀ (ks : List KinematicsCorrection) (ps : List Correction),
      velocityLoop (ks.map Correction.kinematics ++ Correction.velocity vc :: ps) indeterminate =
        match vc.sensor_data_buffer with
        | [] => VelocityLoopExit.returned
        | velocity_packet_in :: _ => VelocityLoopExit.done velocity_packet_in.velocity := by
    intro ks ps
    rw [velocityLoop_eq, firstVelocityCorrection_append]
  have hres : ∀ (ks : List KinematicsCorrection) (ps : List Correction),
      (({ e with corrections_ := ks.map Correction.kinematics ++
            Correction.velocity vc :: ps } : StateEstimator).initStateByImuAndVelocity
          fresh indeterminate).map (fun r => (r.state_, r.enabled)) =
        match vc.sensor_data_buffer with
        | [] => some (e.state_, e.enabled)
        | velocity_packet_in :: _ =>
          some ({ fresh with
              rotation := 1
              velocity := velocity_packet_in.velocity
              position := ![0, 0, 0]
              gyroscope_bias := imu_propagation.bg0
              accelerometer_bias := imu_propagation.ba0
              rotation_covariance := (0.03 : ℚ) • (1 : Matrix3d)
              velocity_covariance := (0.01 : ℚ) • (1 : Matrix3d)
              position_covariance := (0.00001 : ℚ) • (1 : Matrix3d)
              gyroscope_bias_covariance := (0.0001 : ℚ) • (1 : Matrix3d)
              accelerometer_bias_covariance := (0.0025 : ℚ) • (1 : Matrix3d)
              time := imu_packet_in.time }, true) := by
    intro ks ps
    have h := hloop ks ps
    cases hv : vc.sensor_data_buffer with
    | nil =>
      simp only [hv] at h
      simp [StateEstimator.initStateByImuAndVelocity, StateEstimator.clear, hprop,
        Propagation.asImuPropagation, ImuPropagation.get_sensor_data_buffer_ptr, himu, h,
        StateEstimator.enabled]
    | cons v vs =>
      simp only [hv] at h
      rw [initState_of_done fresh indeterminate
        ({ e with corrections_ := ks.map Correction.kinematics ++
            Correction.velocity vc :: ps } : StateEstimator)
        imu_propagation imu_packet_in imu_rest v.velocity hprop himu h]
      rfl
  refine ⟨firstVelocityCorrection_append kins vc post, ?_, ?_, ?_⟩
  · intro kins2 post2
    rw [hres kins2 post2, hres kins post]
  · intro hv
    have h := hloop kins post
    simp only [hv] at h
    simp [StateEstimator.initStateByImuAndVelocity, StateEstimator.clear, hprop,
      Propagation.asImuPropagation, ImuPropagation.get_sensor_data_buffer_ptr, himu, h]
  · intro v vs hv
    have h := hloop kins post
    simp only [hv] at h
    exact ⟨_, initState_of_done fresh indeterminate
      ({ e with corrections_ := kins.map Correction.kinematics ++
          Correction.velocity vc :: post } : StateEstimator)
      imu_propagation imu_packet_in imu_rest v.velocity hprop himu h, rfl, rfl⟩

/-- Witness of C10: a kinematics correction, then a velocity correction with an
empty buffer, then a velocity correction with one sample. -/
theorem initStateByImuAndVelocity_uses_first_velocity_correction_witness :
    startEstimator.propagation_ = some (Propagation.imu readyImu) ∧
    readyImu.sensor_data_buffer = imuSample :: [] ∧
    (firstVelocityCorrection ([idleKinematics].map Correction.kinematics ++
        Correction.velocity starvedVelocity :: [Correction.velocity readyVelocity]) =
      some starvedVelocity ∧
    (∀ (kins2 : List KinematicsCorrection) (post2 : List Correction),
      (({ startEstimator with corrections_ := kins2.map Correction.kinematics ++
            Correction.velocity starvedVelocity :: post2 } :
          StateEstimator).initStateByImuAndVelocity zeroState 0).map
          (fun r => (r.state_, r.enabled)) =
      (({ startEstimator with corrections_ := [idleKinematics].map Correction.kinematics ++
            Correction.velocity starvedVelocity :: [Correction.velocity readyVelocity] } :
          StateEstimator).initStateByImuAndVelocity zeroState 0).map
          (fun r => (r.state_, r.enabled))) ∧
    (starvedVelocity.sensor_data_buffer = [] →
      ({ startEstimator with corrections_ := [idleKinematics].map Correction.kinematics ++
          Correction.velocity starvedVelocity :: [Correction.velocity readyVelocity] } :
        StateEstimator).initStateByImuAndVelocity zeroState 0 =
      some ({ startEstimator with corrections_ := [idleKinematics].map Correction.kinematics ++
                Correction.velocity starvedVelocity :: [Correction.velocity readyVelocity] } :
        StateEstimator)) ∧
    (∀ velocity_packet_in velocity_rest,
      starvedVelocity.sensor_data_buffer = velocity_packet_in :: velocity_rest →
      ∃ e', ({ startEstimator with corrections_ := [idleKinematics].map Correction.kinematics ++
                Correction.velocity starvedVelocity :: [Correction.velocity readyVelocity] } :
        StateEstimator).initStateByImuAndVelocity zeroState 0 = some e' ∧
        e'.state_.velocity = velocity_packet_in.velocity ∧ e'.enabled = true)) :=
  ⟨rfl, rfl, initStateByImuAndVelocity_uses_first_velocity_correction zeroState 0 startEstimator
    [idleKinematics] starvedVelocity [Correction.velocity readyVelocity] readyImu imuSample []
    rfl rfl⟩

/-! ## The estimator loop -/

/-- C11: the estimator loop (if enabled then `run_once`, else if the bias is
initialised then `initStateByImuAndVelocity`, else `initBias`, then the arrivals of
`ros::spinOnce()`) is started on an estimator that has an empty output queue and
an IMU propagation, in particular on one that is not enabled.  Then after every
number `k` of iterations the loop has returned an estimator `ek`; if the enabled
flag of `ek` is false its output queue is empty, and the same holds right after
the next step; and in the next step exactly one of the three routines is reached,
is executed and gives the result of the step. -/
theorem nothing_published_before_running
    (env : Collaborators) (passes : List LoopPass) (e0 : StateEstimator) (p0 : ImuPropagation)
    (hempty : e0.robot_state_queue_ = [])
    (hprop : e0.propagation_ = some (Propagation.imu p0)) (k : Nat) :
    ∃ ek, estimatorLoop env (passes.take k) e0 = some ek ∧
      (ek.enabled = false → ek.robot_state_queue_ = []) ∧
      (∀ indeterminate e', estimatorLoopStep env indeterminate ek = some e' →
        e'.enabled = false → e'.robot_state_queue_ = []) ∧
      ∀ indeterminate, ∃! r : Routine, r.reached ek = true ∧
        ∃ e', r.run env indeterminate ek = some e' ∧
          estimatorLoopStep env indeterminate ek = some e' := by
  have hstart : BeforeRunning e0 := ⟨⟨_, hprop⟩, fun _ => ⟨hempty, p0, hprop⟩⟩
  obtain ⟨ek, hek, hbefore⟩ := estimatorLoop_before env (passes.take k) e0 hstart
  refine ⟨ek, hek, fun hd => (hbefore.2 hd).1, ?_, fun v => routine_unique env v ek hbefore⟩
  intro v e' he' hd
  obtain ⟨e2, he2, hb2⟩ := estimatorLoopStep_before env v ek hbefore
  rw [he2] at he'
  cases he'
  exact (hb2.2 hd).1

/-- Witness of C11: the loop is run on `coldEstimator` for the iterations of
`twoPasses`. -/
theorem nothing_published_before_running_witness :
    coldEstimator.enabled = false ∧ coldEstimator.robot_state_queue_ = [] ∧
    coldEstimator.propagation_ = some (Propagation.imu coldImu) ∧
    ∃ ek, estimatorLoop sampleCollaborators (twoPasses.take 2) coldEstimator = some ek ∧
      (ek.enabled = false → ek.robot_state_queue_ = []) ∧
      (∀ indeterminate e', estimatorLoopStep sampleCollaborators indeterminate ek = some e' →
        e'.enabled = false → e'.robot_state_queue_ = []) ∧
      ∀ indeterminate, ∃! r : Routine, r.reached ek = true ∧
        ∃ e', r.run sampleCollaborators indeterminate ek = some e' ∧
          estimatorLoopStep sampleCollaborators indeterminate ek = some e' :=
  ⟨rfl, rfl, rfl, nothing_published_before_running sampleCollaborators twoPasses coldEstimator
    coldImu rfl rfl 2⟩

/-- C12: for every estimator with an IMU propagation, `initStateByImuAndVelocity`
returns, successful or not, with the IMU propagation and the list of corrections,
hence the IMU buffer and the buffer of every correction, exactly as before the
call.  Either the estimator is returned as it was, or it is enabled with the time
of the sample at the front of the IMU buffer and, when a velocity correction is
registered, the velocity of the sample at the front of the buffer of the first
one, and these samples are still at the front of their buffers.  The next
`run_once` cycle calls `Propagate` on the propagation as it was before the call
and `Correct` on the corrections as they were before the call. -/
theorem initStateByImuAndVelocity_only_peeks
    (fresh : RobotState) (indeterminate : Vector3d) (e : StateEstimator) (p : ImuPropagation)
    (hprop : e.propagation_ = some (Propagation.imu p)) :
    ∃ e', e.initStateByImuAndVelocity fresh indeterminate = some e' ∧
      e'.propagation_ = some (Propagation.imu p) ∧
      e'.corrections_ = e.corrections_ ∧
      (e' = e ∨
        ∃ imu_packet_in imu_rest,
          p.sensor_data_buffer = imu_packet_in :: imu_rest ∧
          e'.state_.time = imu_packet_in.time ∧ e'.enabled = true ∧
          ∀ vc, firstVelocityCorrection e'.corrections_ = some vc →
            ∃ velocity_packet_in velocity_rest,
              vc.sensor_data_buffer = velocity_packet_in :: velocity_rest ∧
              e'.state_.velocity = velocity_packet_in.velocity) ∧
      ∀ (Propagate : Propagation → RobotState → CallResult Propagation)
        (Correct : Correction → RobotState → CallResult Correction),
        ∃ e2, e'.run_once Propagate Correct = some e2 ∧
          e2.propagation_ = some (Propagate (Propagation.imu p) e'.state_).obj ∧
          ∀ i, e2.corrections_[i]? =
            (callAt Correct e.corrections_ (Propagate (Propagation.imu p) e'.state_).state i).map
              (fun r => r.obj) := by
  have hnext : ∀ e' : StateEstimator, e'.propagation_ = some (Propagation.imu p) →
      e'.corrections_ = e.corrections_ →
      ∀ (Propagate : Propagation → RobotState → CallResult Propagation)
        (Correct : Correction → RobotState → CallResult Correction),
        ∃ e2, e'.run_once Propagate Correct = some e2 ∧
          e2.propagation_ = some (Propagate (Propagation.imu p) e'.state_).obj ∧
          ∀ i, e2.corrections_[i]? =
            (callAt Correct e.corrections_ (Propagate (Propagation.imu p) e'.state_).state i).map
              (fun r => r.obj) := by
    intro e' hp' hc' Propagate Correct
    obtain ⟨e2, he2, hp2, hc2, -⟩ := run_once_eq Propagate Correct e' _ hp'
    refine ⟨e2, he2, hp2, ?_⟩
    intro i
    rw [hc2, correctLoop_objs, hc']
  cases hb : p.sensor_data_buffer with
  | nil =>
    refine ⟨e, ?_, hprop, rfl, Or.inl rfl, hnext e hprop rfl⟩
    simp [StateEstimator.initStateByImuAndVelocity, StateEstimator.clear, hprop,
      Propagation.asImuPropagation, ImuPropagation.get_sensor_data_buffer_ptr, hb]
  | cons m ms =>
    cases hl : velocityLoop e.corrections_ indeterminate with
    | undefined => exact absurd hl (velocityLoop_ne_undefined _ _)
    | returned =>
      refine ⟨e, ?_, hprop, rfl, Or.inl rfl, hnext e hprop rfl⟩
      simp [StateEstimator.initStateByImuAndVelocity, StateEstimator.clear, hprop,
        Propagation.asImuPropagation, ImuPropagation.get_sensor_data_buffer_ptr, hb, hl]
    | done v0_body =>
      refine ⟨_, initState_of_done fresh indeterminate e p m ms v0_body hprop hb hl, hprop, rfl,
        Or.inr ⟨m, ms, rfl, rfl, rfl, ?_⟩, hnext _ hprop rfl⟩
      intro vc hvc
      change firstVelocityCorrection e.corrections_ = some vc at hvc
      rw [velocityLoop_eq, hvc] at hl
      cases hv : vc.sensor_data_buffer with
      | nil => simp [hv] at hl
      | cons v vs =>
        simp only [hv, VelocityLoopExit.done.injEq] at hl
        exact ⟨v, vs, rfl, hl.symm⟩

/-- Witness of C12 on `startEstimator`. -/
theorem initStateByImuAndVelocity_only_peeks_witness :
    startEstimator.propagation_ = some (Propagation.imu readyImu) ∧
    ∃ e', startEstimator.initStateByImuAndVelocity zeroState 0 = some e' ∧
      e'.propagation_ = some (Propagation.imu readyImu) ∧
      e'.corrections_ = startEstimator.corrections_ ∧
      (e' = startEstimator ∨
        ∃ imu_packet_in imu_rest,
          readyImu.sensor_data_buffer = imu_packet_in :: imu_rest ∧
          e'.state_.time = imu_packet_in.time ∧ e'.enabled = true ∧
          ∀ vc, firstVelocityCorrection e'.corrections_ = some vc →
            ∃ velocity_packet_in velocity_rest,
              vc.sensor_data_buffer = velocity_packet_in :: velocity_rest ∧
              e'.state_.velocity = velocity_packet_in.velocity) ∧
      ∀ (Propagate : Propagation → RobotState → CallResult Propagation)
        (Correct : Correction → RobotState → CallResult Correction),
        ∃ e2, e'.run_once Propagate Correct = some e2 ∧
          e2.propagation_ = some (Propagate (Propagation.imu readyImu) e'.state_).obj ∧
          ∀ i, e2.corrections_[i]? =
            (callAt Correct startEstimator.corrections_
              (Propagate (Propagation.imu readyImu) e'.state_).state i).map
              (fun r => r.obj) :=
  ⟨rfl, initStateByImuAndVelocity_only_peeks zeroState 0 startEstimator readyImu rfl⟩

end Drift
